import Mathlib

/-!
# Layout / mapping conversion helpers of `Kokkos_MDSpan_Layout.hpp`

A shallow embedding of the interoperability helpers between the legacy Kokkos
array layouts (`LayoutLeft`, `LayoutRight`, `LayoutStride`) and the mdspan
layout mappings (`layout_left`, `layout_right`, `layout_left_padded`,
`layout_right_padded`, `layout_stride`).

Conventions of the embedding:

* `size_t` and the mappings' `index_type` are natural numbers; the only
  arithmetic performed by the conversion code itself is the running product
  `product_of_dimensions`, which is reduced modulo `2 ^ 64` at every step.
* Template parameters (`LayoutType`, `MappingType::layout_type`, the rank)
  become ordinary arguments.  The two C++ overload families (generic
  Left/Right and `LayoutStride`) become separate functions.
* A call either returns a value, calls `Kokkos::abort`, or reaches the end of
  the function body without executing a `return` statement.
-/

namespace Kokkos.Impl

/-! ## Constants and outcome of a call -/

/-- Modelled from the spec: the reserved sentinel `KOKKOS_IMPL_CTOR_DEFAULT_ARG`
("use the natural contiguous stride" / "dimension not used").  The macro is
defined outside the sources at hand; it is taken to be the largest `size_t`. -/
def KOKKOS_IMPL_CTOR_DEFAULT_ARG : Nat := 2 ^ 64 - 1

/-- Modelled from the spec: the rank ceiling `LAYOUT_TYPE_MAX_RANK` (the static
assertion message reads "must be <= 8"). -/
def LAYOUT_TYPE_MAX_RANK : Nat := 8

/-- Number of values of `size_t`; `size_t` arithmetic is taken modulo it. -/
def SIZE_T_MODULUS : Nat := 2 ^ 64

/-- Outcome of one call of a conversion helper. -/
inductive Outcome (α : Type) where
  /-- A `return` statement was executed with this value. -/
  | returned (value : α)
  /-- The call reached `Kokkos::abort`: the process terminates, nothing is returned. -/
  | aborted
  /-- Control reached the closing brace of a value-returning function without
  executing any `return` statement: no value is constructed. -/
  | no_return
  deriving DecidableEq, Repr

/-- Sequencing of two calls: the second call runs on the value returned by the
first; if the first call returns nothing, neither does the composition. -/
def Outcome.bind {α β : Type} : Outcome α → (α → Outcome β) → Outcome β
  | .returned a, f => f a
  | .aborted, _ => .aborted
  | .no_return, _ => .no_return

/-! ## Legacy array layouts (layout descriptors) -/

/-- The two legacy layouts handled by the generic overloads. -/
inductive LeftRight where
  | LayoutLeft
  | LayoutRight
  deriving DecidableEq, Repr

/-- Modelled from the spec: the shape shared by `Kokkos::LayoutLeft` and
`Kokkos::LayoutRight` (declared outside the sources at hand): eight dimension
slots and one `stride` field. -/
structure LayoutLR where
  dimension : Fin 8 → Nat
  stride : Nat
  deriving DecidableEq

/-- Modelled from the spec: the extent constructor of `LayoutLeft` /
`LayoutRight` (declared outside the sources at hand): the eight arguments are
stored in `dimension` and `stride` is set to the sentinel. -/
def LayoutLR.ctor (N : Fin 8 → Nat) : LayoutLR :=
  { dimension := N, stride := KOKKOS_IMPL_CTOR_DEFAULT_ARG }

/-- Modelled from the spec: `Kokkos::LayoutStride` (declared outside the sources
at hand): eight dimension slots and eight stride slots, both stored as given
by its sixteen-argument constructor. -/
structure LayoutStride where
  dimension : Fin 8 → Nat
  stride : Fin 8 → Nat
  deriving DecidableEq

/-! ## mdspan mappings -/

/-- The layout policies a mapping type can carry (`MappingType::layout_type`);
the padded ones are the `<dynamic_extent>` instances. -/
inductive MappingLayout where
  | layout_left
  | layout_right
  | layout_left_padded
  | layout_right_padded
  | layout_stride
  deriving DecidableEq, Repr

/-- The layout policies whose mapping can be built from extents alone; these
are the instantiations of the generic `mapping_from_layout_type_impl`. -/
inductive ExtentsLayout where
  | layout_left
  | layout_right
  | layout_left_padded
  | layout_right_padded
  deriving DecidableEq, Repr

/-- Product of the extents at the positions `lo ≤ k < hi`. -/
def extent_product (exts : List Nat) (lo hi : Nat) : Nat :=
  ((exts.take hi).drop lo).prod

/-- Modelled from the spec: the Mapping abstraction (the mdspan mapping types are
declared outside the sources at hand).  A mapping pairs the extents (the rank
is their number) with its layout policy; a padded mapping stores the single
padded stride, a `layout_stride` mapping stores one stride per dimension. -/
inductive Mapping where
  | layout_left (exts : List Nat)
  | layout_right (exts : List Nat)
  | layout_left_padded (exts : List Nat) (padded_stride : Nat)
  | layout_right_padded (exts : List Nat) (padded_stride : Nat)
  | layout_stride (exts : List Nat) (strides : List Nat)
  deriving DecidableEq, Repr

namespace Mapping

/-- The extents of a mapping (`mapping.extents()`). -/
def extents : Mapping → List Nat
  | layout_left e => e
  | layout_right e => e
  | layout_left_padded e _ => e
  | layout_right_padded e _ => e
  | layout_stride e _ => e

/-- The rank of a mapping (`extents_type::rank()`). -/
def rank (m : Mapping) : Nat := m.extents.length

/-- The size along dimension `i` (`extents().extent(i)`). -/
def extent (m : Mapping) (i : Nat) : Nat := m.extents.getD i 0

/-- The layout policy tag (`mapping_type::layout_type`). -/
def layout_type : Mapping → MappingLayout
  | layout_left _ => .layout_left
  | layout_right _ => .layout_right
  | layout_left_padded _ _ => .layout_left_padded
  | layout_right_padded _ _ => .layout_right_padded
  | layout_stride _ _ => .layout_stride

/-- Modelled from the spec: `stride(i)`, defined for every dimension.  Left is
column-major growth, Right is row-major growth; a padded mapping reports `1`
at its contiguous end, the stored padded stride next to it, and the padded
stride times the intermediate extents further out; a `layout_stride` mapping
reports its stored stride. -/
def stride : Mapping → Nat → Nat
  | layout_left e, i => extent_product e 0 i
  | layout_right e, i => extent_product e (i + 1) e.length
  | layout_left_padded e p, i => if i = 0 then 1 else p * extent_product e 1 i
  | layout_right_padded e p, i =>
      if i + 1 = e.length then 1 else p * extent_product e (i + 1) (e.length - 1)
  | layout_stride _ s, i => s.getD i 0

/-- Modelled from the spec: construction "from extents alone", giving the fully
contiguous mapping of the requested policy (`MappingType{extents}`); for a
padded policy the stored padded stride is the extent it sits next to. -/
def from_extents : ExtentsLayout → List Nat → Mapping
  | .layout_left, e => layout_left e
  | .layout_right, e => layout_right e
  | .layout_left_padded, e => layout_left_padded e (e.getD 0 0)
  | .layout_right_padded, e => layout_right_padded e (e.getD (e.length - 1) 0)

/-- Modelled from the spec: construction "from extents plus the single stride
value at the interior position" (`MappingType{extents, stride}`) for the padded
policies; the value is stored as the padded stride.  The plain policies have
no such constructor and are never built this way by the code. -/
def from_extents_stride : ExtentsLayout → List Nat → Nat → Mapping
  | .layout_left, e, _ => layout_left e
  | .layout_right, e, _ => layout_right e
  | .layout_left_padded, e, s => layout_left_padded e s
  | .layout_right_padded, e, s => layout_right_padded e s

/-- Modelled from the spec: the default-constructed mapping `MappingType{}` of a
rank-0 `layout_stride` mapping type: no extents, no strides. -/
def default_stride : Mapping := layout_stride [] []

/-- Observational agreement of the mapping `m'` with `m`: the same rank and,
for every dimension below the rank, the same `extent(i)` and `stride(i)`. -/
def agrees (m' m : Mapping) : Prop :=
  m'.rank = m.rank ∧ ∀ i, i < m.rank → m'.extent i = m.extent i ∧ m'.stride i = m.stride i

instance (m' m : Mapping) : Decidable (m'.agrees m) := by
  unfold agrees; infer_instance

end Mapping

/-- The natural (unpadded) stride of dimension `i` for the extents `e`, in the
spec's words: the product of the extents `0 .. i-1` for Left (column-major),
the product of the extents `i+1 .. R-1` for Right (row-major). -/
def natural_stride : LeftRight → List Nat → Nat → Nat
  | .LayoutLeft, e, i => (e.take i).prod
  | .LayoutRight, e, i => (e.drop (i + 1)).prod

/-! ## Mapping → layout descriptor -/

/-- The eight constructor arguments `rank > k ? f(k) : unused` for `k = 0, …, 7`,
as `layout_type_from_mapping` writes them out for the extents and for the
strides. -/
def ctor_arguments (rank : Nat) (f : Nat → Nat) (unused : Nat) : Fin 8 → Nat :=
  ![if rank > 0 then f 0 else unused,
    if rank > 1 then f 1 else unused,
    if rank > 2 then f 2 else unused,
    if rank > 3 then f 3 else unused,
    if rank > 4 then f 4 else unused,
    if rank > 5 then f 5 else unused,
    if rank > 6 then f 6 else unused,
    if rank > 7 then f 7 else unused]

/-- `layout_type_from_mapping<LayoutStride, MDSpanType>` (the first branch of the
`if constexpr`): every slot below the rank is filled from the mapping, the
others get the sentinel dimension and stride `0`. -/
def layout_type_from_mapping_stride (mapping : Mapping) : Outcome LayoutStride :=
  let rank := mapping.rank
  let ext := mapping
  .returned
    { dimension := ctor_arguments rank ext.extent KOKKOS_IMPL_CTOR_DEFAULT_ARG
      stride := ctor_arguments rank mapping.stride 0 }

/-- `layout_type_from_mapping<LayoutType, MDSpanType>` for `LayoutType` one of
`LayoutLeft`, `LayoutRight` (the `else` branch of the `if constexpr`).  Both
targets run the same statements, which depend on the mapping's own policy. -/
def layout_type_from_mapping (_LayoutType : LeftRight) (mapping : Mapping) :
    Outcome LayoutLR :=
  let rank := mapping.rank
  let ext := mapping
  let layout := LayoutLR.ctor (ctor_arguments rank ext.extent KOKKOS_IMPL_CTOR_DEFAULT_ARG)
  let layout :=
    if rank > 1 ∧ mapping.layout_type = .layout_left_padded then
      { layout with stride := mapping.stride 1 }
    else layout
  if mapping.layout_type = .layout_right_padded then
    let layout :=
      if rank = 2 then { layout with stride := mapping.stride 0 } else layout
    if rank > 2 then
      if mapping.stride (rank - 2) ≠ mapping.extent (rank - 1) then .aborted
      else .returned layout
    else .returned layout
  else .returned layout

/-! ## Layout descriptor → mapping -/

/-- The pack `layout.dimension[Idx]...` (resp. `layout.stride[Idx]...`) for
`Idx = 0, …, rank - 1`: the first `rank` slots of an eight-slot array. -/
def pack (a : Fin 8 → Nat) (rank : Nat) : List Nat :=
  (List.ofFn a).take rank

/-- The loop `for (r = 1; r < rank; r++) product_of_dimensions *= layout.dimension[r]`
in `size_t` arithmetic, started from the accumulator `acc`; it visits the
slots `1, …, rank - 1` in order. -/
def product_loop (dims : List Nat) (acc : Nat) : Nat :=
  dims.foldl (fun p d => (p * d) % SIZE_T_MODULUS) acc

/-- The value of `product_of_dimensions` after the loop. -/
def product_of_dimensions (layout : LayoutLR) (rank : Nat) : Nat :=
  product_loop ((pack layout.dimension rank).drop 1) 1

/-- The generic `mapping_from_layout_type_impl<MappingType, LayoutType, Idx...>`
for `LayoutType` one of `LayoutLeft`, `LayoutRight`; `MappingLayout` and `rank`
stand for `MappingType::layout_type` and `MappingType::extents_type::rank()`. -/
def mapping_from_layout_type_impl (MappingLayout : ExtentsLayout) (rank : Nat)
    (LayoutType : LeftRight) (layout : LayoutLR) : Outcome Mapping :=
  if MappingLayout = .layout_left ∨ MappingLayout = .layout_right then
    .returned (Mapping.from_extents MappingLayout (pack layout.dimension rank))
  else
    if layout.stride = KOKKOS_IMPL_CTOR_DEFAULT_ARG ∨ rank < 2 then
      .returned (Mapping.from_extents MappingLayout (pack layout.dimension rank))
    else
      if LayoutType = .LayoutRight ∧ rank > 2 then
        let product_of_dimensions := product_of_dimensions layout rank
        if product_of_dimensions ≠ layout.stride then .aborted
        else .no_return
      else
        .returned
          (Mapping.from_extents_stride MappingLayout (pack layout.dimension rank)
            layout.stride)

/-- The overloads `mapping_from_layout_type_impl<MappingType>(LayoutStride, …)`;
`MappingType::layout_type` is `layout_stride` by the static assertion.  Rank 0
selects the specialisation that returns `MappingType{}` without touching the
descriptor. -/
def mapping_from_layout_type_impl_stride (rank : Nat) (layout : LayoutStride) :
    Outcome Mapping :=
  match rank with
  | 0 => .returned Mapping.default_stride
  | r + 1 =>
      let strides := pack layout.stride (r + 1)
      .returned (Mapping.layout_stride (pack layout.dimension (r + 1)) strides)

/-- `mapping_from_layout_type<MappingType, LayoutType>` for `LayoutLeft` /
`LayoutRight` descriptors. -/
def mapping_from_layout_type (MappingLayout : ExtentsLayout) (rank : Nat)
    (LayoutType : LeftRight) (layout : LayoutLR) : Outcome Mapping :=
  mapping_from_layout_type_impl MappingLayout rank LayoutType layout

/-- `mapping_from_layout_type<MappingType, LayoutStride>`. -/
def mapping_from_layout_type_stride (rank : Nat) (layout : LayoutStride) :
    Outcome Mapping :=
  mapping_from_layout_type_impl_stride rank layout

/-- The padded mapping policy assigned to a legacy layout by
`LayoutFromLayoutType`. -/
def LayoutFromLayoutType : LeftRight → ExtentsLayout
  | .LayoutLeft => .layout_left_padded
  | .LayoutRight => .layout_right_padded

/-- The padded mapping of the family of `L` with extents `e` and stored padded
stride `p` (a value of the mapping type `LayoutFromLayoutType L`). -/
def padded_mapping : LeftRight → List Nat → Nat → Mapping
  | .LayoutLeft, e, p => Mapping.layout_left_padded e p
  | .LayoutRight, e, p => Mapping.layout_right_padded e p

/-- The ranks at which the descriptor's `stride` field and the padded stride of
the family's padded mapping are exchanged as they are: rank above 1 for the
Left family (`stride(1)`), rank exactly 2 for the Right family (`stride(0)`). -/
def carries_padded_stride : LeftRight → Nat → Prop
  | .LayoutLeft, rank => rank > 1
  | .LayoutRight, rank => rank = 2

instance (L : LeftRight) (rank : Nat) : Decidable (carries_padded_stride L rank) := by
  cases L <;> unfold carries_padded_stride <;> infer_instance

/-- The family (column-major or row-major) of a mapping policy built from extents. -/
def ExtentsLayout.family : ExtentsLayout → LeftRight
  | .layout_left => .LayoutLeft
  | .layout_left_padded => .LayoutLeft
  | .layout_right => .LayoutRight
  | .layout_right_padded => .LayoutRight

/-! ## View-internal strides → mapping -/

/-- Modelled from the spec: the array view's internal mapping `VM` as seen by
`mapping_from_view_mapping` (the view types are declared outside the sources at
hand): the extents read by `extents_from_view_mapping` (their number is
`VM::Rank`) and the array written by `stride_fill`, one stride per dimension. -/
structure ViewMapping where
  extents : List Nat
  stride_fill : List Nat
  deriving DecidableEq, Repr

/-- `VM::Rank`. -/
def ViewMapping.Rank (view_mapping : ViewMapping) : Nat := view_mapping.extents.length

/-- `mapping_from_view_mapping<MDSpanType, VM>`; `MappingLayout` stands for
`mapping_type::layout_type`.  The chain of `if constexpr` tests is followed in
order; in its last branch the policy is one that is built from extents alone. -/
def mapping_from_view_mapping (MappingLayout : MappingLayout) (view_mapping : ViewMapping) :
    Outcome Mapping :=
  let strides := view_mapping.stride_fill
  let Rank := view_mapping.Rank
  match MappingLayout with
  | .layout_stride => .returned (Mapping.layout_stride view_mapping.extents strides)
  | .layout_left_padded =>
      if Rank > 1 then
        .returned (Mapping.layout_left_padded view_mapping.extents (strides.getD 1 0))
      else .returned (Mapping.from_extents .layout_left_padded view_mapping.extents)
  | .layout_right_padded =>
      if Rank > 1 then
        .returned (Mapping.layout_right_padded view_mapping.extents (strides.getD (Rank - 2) 0))
      else .returned (Mapping.from_extents .layout_right_padded view_mapping.extents)
  | .layout_left => .returned (Mapping.from_extents .layout_left view_mapping.extents)
  | .layout_right => .returned (Mapping.from_extents .layout_right view_mapping.extents)

/-- Self-consistency of a view's stride array for a target policy, in the
claim's words: any array for `layout_stride`; `strides[0] = 1` and
`strides[i] = strides[1] * (product of the extents 1 .. i-1)` for padded-left;
`strides[R-1] = 1` and `strides[i] = strides[R-2] * (product of the extents
i+1 .. R-2)` for padded-right.  For the plain policies the array is consistent
when it holds the natural strides. -/
def view_strides_consistent (T : MappingLayout) (vm : ViewMapping) : Prop :=
  match T with
  | .layout_stride => True
  | .layout_left_padded =>
      ∀ i, i < vm.Rank →
        vm.stride_fill.getD i 0 =
          if i = 0 then 1
          else vm.stride_fill.getD 1 0 * ((vm.extents.take i).drop 1).prod
  | .layout_right_padded =>
      ∀ i, i < vm.Rank →
        vm.stride_fill.getD i 0 =
          if i + 1 = vm.Rank then 1
          else vm.stride_fill.getD (vm.Rank - 2) 0
            * ((vm.extents.take (vm.Rank - 1)).drop (i + 1)).prod
  | .layout_left =>
      ∀ i, i < vm.Rank → vm.stride_fill.getD i 0 = natural_stride .LayoutLeft vm.extents i
  | .layout_right =>
      ∀ i, i < vm.Rank → vm.stride_fill.getD i 0 = natural_stride .LayoutRight vm.extents i

instance (T : MappingLayout) (vm : ViewMapping) : Decidable (view_strides_consistent T vm) := by
  cases T <;> unfold view_strides_consistent <;> infer_instance

/-! ## Uniform view types (`Kokkos_ViewUniformType.hpp`) -/

/-- The class passed as the template argument `LayoutType`: one of the three
Kokkos array layouts, or any other class, told apart by a number. -/
inductive LayoutClass where
  | LayoutLeft
  | LayoutRight
  | LayoutStride
  | other (id : Nat)
  deriving DecidableEq, Repr

/-- `ViewUniformLayout<LayoutType, Rank>::layout_type`, `Rank` being an `int`.  The
partial specialisation for rank 0 gives `Kokkos::LayoutLeft`, the explicit
specialisation for `(Kokkos::LayoutRight, 1)` gives `Kokkos::LayoutRight`, and
the primary template gives `LayoutType`. -/
def ViewUniformLayout (LayoutType : LayoutClass) (Rank : Int) : LayoutClass :=
  if Rank = 0 then .LayoutLeft
  else if LayoutType = .LayoutRight ∧ Rank = 1 then .LayoutRight
  else LayoutType

/-- The members of the template argument `ViewType` that `ViewUniformType` reads
for its `layout_type`: `ViewType::layout_type` and `ViewType::rank`. -/
structure ViewType where
  layout_type : LayoutClass
  rank : Nat
  deriving DecidableEq, Repr

/-- `ViewUniformType<ViewType, Traits>::layout_type` (lines 81-82). -/
def ViewUniformType.layout_type (V : ViewType) : LayoutClass :=
  ViewUniformLayout V.layout_type (V.rank : Int)

end Kokkos.Impl

/-! # The GUPS benchmark driver (`gups-kokkos.cpp`) -/

namespace GUPS

/-- `iters_per_team = indices.extent(0) / num_teams` in `run_gups`; `N` is the
length of `indices`.  All quantities of the index computation are non-negative
and far below `2^63`, so they are natural numbers here. -/
def iters_per_team (N num_teams : Nat) : Nat := N / num_teams

/-- `iters_per_thread = iters_per_team / team_size`. -/
def iters_per_thread (N num_teams team_size : Nat) : Nat :=
  iters_per_team N num_teams / team_size

/-- `first_i = team.league_rank() * iters_per_team`. -/
def first_i (N num_teams league_rank : Nat) : Nat :=
  league_rank * iters_per_team N num_teams

/-- `last_i = first_i + iters_per_team < indices.extent(0) ? first_i + iters_per_team
: indices.extent(0)`. -/
def last_i (N num_teams league_rank : Nat) : Nat :=
  if first_i N num_teams league_rank + iters_per_team N num_teams < N then
    first_i N num_teams league_rank + iters_per_team N num_teams
  else N

/-- `first_thread_i = team.team_rank() * iters_per_thread`. -/
def first_thread_i (N num_teams team_size team_rank : Nat) : Nat :=
  team_rank * iters_per_thread N num_teams team_size

/-- `last_thread_i = first_thread_i + iters_per_thread < last_i ?
first_thread_i + iters_per_thread : last_i`. -/
def last_thread_i (N num_teams team_size league_rank team_rank : Nat) : Nat :=
  if first_thread_i N num_teams team_size team_rank + iters_per_thread N num_teams team_size
      < last_i N num_teams league_rank then
    first_thread_i N num_teams team_size team_rank + iters_per_thread N num_teams team_size
  else last_i N num_teams league_rank

/-- The position `first_thread_i + i` at which `indices[]` is read by the
innermost lambda, `i` ranging over `ThreadVectorRange(team, last_thread_i)`,
that is `0 ≤ i < last_thread_i`. -/
def index_position (N num_teams team_size team_rank i : Nat) : Nat :=
  first_thread_i N num_teams team_size team_rank + i

/-- The benchmark parameters that `main` hands to `run_benchmark`. -/
structure Parameters where
  indices : Int
  data : Int
  repeats : Int
  useAtomics : Bool
  nTeams : Int
  nThrPerTeam : Int
  vlen : Int
  deriving DecidableEq, Repr

/-- The initialised values of the parameters in `main` (lines 196-202). -/
def initial_parameters : Parameters :=
  { indices := 8192, data := 33554432, repeats := 10, useAtomics := false,
    nTeams := 32, nThrPerTeam := 32, vlen := 1 }

/-- The parameters `main` passes to `run_benchmark`: the seven conditional
assignments of lines 204-210, in order, applied to the initialised values;
`atoi_argv k` stands for `atoi(argv[k])`, and an `int` assigned to the `bool`
`useAtomics` is `true` when it is not zero. -/
def main (argc : Nat) (atoi_argv : Nat → Int) : Parameters :=
  let p := initial_parameters
  let p := { p with indices := if argc > 1 then atoi_argv 1 else p.indices }
  let p := { p with data := if argc > 2 then atoi_argv 2 else p.data }
  let p := { p with repeats := if argc > 3 then atoi_argv 3 else p.data }
  let p := { p with useAtomics := if argc > 4 then decide (atoi_argv 4 ≠ 0) else p.useAtomics }
  let p := { p with nTeams := if argc > 5 then atoi_argv 5 else p.nTeams }
  let p := { p with nThrPerTeam := if argc > 6 then atoi_argv 6 else p.nThrPerTeam }
  let p := { p with vlen := if argc > 7 then atoi_argv 7 else p.vlen }
  p

end GUPS

namespace Kokkos.Impl

/-! ## Auxiliary facts -/

/-- The `size_t` loop computes the product of the visited slots modulo `2 ^ 64`. -/
theorem product_loop_eq (dims : List Nat) (acc : Nat) :
    product_loop dims acc % SIZE_T_MODULUS = (acc * dims.prod) % SIZE_T_MODULUS := by
  induction dims generalizing acc with
  | nil => simp [product_loop]
  | cons d t ih =>
      have h := ih ((acc * d) % SIZE_T_MODULUS)
      simp only [product_loop, List.foldl_cons, List.prod_cons] at h ⊢
      rw [h, Nat.mod_mul_mod, Nat.mul_assoc]

theorem product_loop_lt (dims : List Nat) (acc : Nat) (h : acc < SIZE_T_MODULUS) :
    product_loop dims acc < SIZE_T_MODULUS := by
  induction dims generalizing acc with
  | nil => simpa [product_loop] using h
  | cons d t ih =>
      simp only [product_loop, List.foldl_cons]
      exact ih _ (Nat.mod_lt _ (by decide))

theorem product_of_dimensions_eq (layout : LayoutLR) (rank : Nat) :
    product_of_dimensions layout rank
      = ((pack layout.dimension rank).drop 1).prod % SIZE_T_MODULUS := by
  have h1 := product_loop_eq ((pack layout.dimension rank).drop 1) 1
  have h2 := product_loop_lt ((pack layout.dimension rank).drop 1) 1 (by decide)
  rw [Nat.mod_eq_of_lt h2, Nat.one_mul] at h1
  exact h1

theorem pack_length (a : Fin 8 → Nat) (rank : Nat) (h : rank ≤ 8) :
    (pack a rank).length = rank := by
  simp [pack, h]

theorem pack_getD (a : Fin 8 → Nat) (rank : Nat) (i : Fin 8) (h : i.val < rank) :
    (pack a rank).getD i.val 0 = a i := by
  have hlt : i.val < (List.ofFn a).length := by simp
  rw [pack, List.getD_eq_getElem?_getD, List.getElem?_take_of_lt h,
    List.getElem?_eq_getElem hlt, List.getElem_ofFn]
  rfl

/-- Slot `i` of the eight constructor arguments. -/
theorem ctor_arguments_apply (rank : Nat) (f : Nat → Nat) (d : Nat) (i : Fin 8) :
    ctor_arguments rank f d i = if rank > i.val then f i.val else d := by
  fin_cases i <;> rfl

/-- Two lists of the same length with the same entries are equal. -/
theorem list_eq_of_getD (l e : List Nat) (hl : l.length = e.length)
    (h : ∀ n, n < e.length → l.getD n 0 = e.getD n 0) : l = e := by
  apply List.ext_getElem hl
  intro n h1 h2
  have := h n h2
  rwa [List.getD_eq_getElem _ _ h1, List.getD_eq_getElem _ _ h2] at this

/-- The descriptor built for the `LayoutStride` target, slot by slot. -/
theorem layout_type_from_mapping_stride_slots (m : Mapping) :
    ∃ d, layout_type_from_mapping_stride m = .returned d ∧
      ∀ i : Fin 8,
        d.dimension i = (if m.rank > i.val then m.extent i.val else KOKKOS_IMPL_CTOR_DEFAULT_ARG) ∧
        d.stride i = (if m.rank > i.val then m.stride i.val else 0) :=
  ⟨_, rfl, fun i =>
    ⟨ctor_arguments_apply m.rank m.extent KOKKOS_IMPL_CTOR_DEFAULT_ARG i,
      ctor_arguments_apply m.rank m.stride 0 i⟩⟩

/-- What the `LayoutStride` overloads return, observed through the mapping interface. -/
theorem mapping_from_layout_type_stride_spec (rank : Nat) (h8 : rank ≤ 8) (d : LayoutStride) :
    ∃ m, mapping_from_layout_type_stride rank d = .returned m ∧
      m.layout_type = .layout_stride ∧ m.rank = rank ∧
      ∀ i : Fin 8, i.val < rank →
        m.extent i.val = d.dimension i ∧ m.stride i.val = d.stride i := by
  cases rank with
  | zero =>
      exact ⟨_, rfl, rfl, rfl, fun i hi => absurd hi (Nat.not_lt_zero _)⟩
  | succ r =>
      refine ⟨_, rfl, rfl, ?_, fun i hi => ⟨?_, ?_⟩⟩
      · exact pack_length _ _ h8
      · exact pack_getD _ _ i hi
      · exact pack_getD _ _ i hi

/-! ## Round trips -/

/-- C1. Stride round trip: for every `layout_stride` mapping of rank at most 8,
with arbitrary extents `e` and strides `s`, converting it to a `LayoutStride`
descriptor and back neither aborts nor misses its return; the mapping obtained
is a `layout_stride` mapping of the same rank with `extent(i)` and `stride(i)`
equal to those of the original for every `i` below the rank. -/
theorem stride_round_trip (e s : List Nat) (hR : e.length ≤ LAYOUT_TYPE_MAX_RANK) :
    ∃ m', (layout_type_from_mapping_stride (Mapping.layout_stride e s)).bind
          (mapping_from_layout_type_stride e.length) = .returned m' ∧
      m'.layout_type = .layout_stride ∧ m'.agrees (Mapping.layout_stride e s) := by
  obtain ⟨d, hd, hslots⟩ := layout_type_from_mapping_stride_slots (Mapping.layout_stride e s)
  obtain ⟨m', hm', hty, hrk, hobs⟩ := mapping_from_layout_type_stride_spec e.length hR d
  refine ⟨m', ?_, hty, hrk, ?_⟩
  · rw [hd]; exact hm'
  · intro i hi
    have hi8 : i < 8 := lt_of_lt_of_le hi hR
    have h1 := hobs ⟨i, hi8⟩ hi
    have h2 := hslots ⟨i, hi8⟩
    simp only [gt_iff_lt, hi, if_true] at h2
    exact ⟨h1.1.trans h2.1, h1.2.trans h2.2⟩

/-- C1 at the rank-3 `layout_stride` mapping with extents `(4, 5, 6)` and strides
`(1, 8, 40)`. -/
theorem stride_round_trip_witness :
    [4, 5, 6].length ≤ LAYOUT_TYPE_MAX_RANK ∧
    ∃ m', (layout_type_from_mapping_stride (Mapping.layout_stride [4, 5, 6] [1, 8, 40])).bind
          (mapping_from_layout_type_stride [4, 5, 6].length) = .returned m' ∧
      m'.layout_type = .layout_stride ∧
      m'.agrees (Mapping.layout_stride [4, 5, 6] [1, 8, 40]) :=
  ⟨by decide, stride_round_trip [4, 5, 6] [1, 8, 40] (by decide)⟩

/-- The generic `layout_type_from_mapping` in one case distinction: it aborts
exactly on a padded-right mapping of rank above 2 whose `stride(rank - 2)`
differs from `extent(rank - 1)`, and otherwise returns the descriptor with the
dimension slots filled from the extents and the `stride` field set as shown. -/
theorem layout_type_from_mapping_eq (L : LeftRight) (m : Mapping) :
    layout_type_from_mapping L m =
      if m.layout_type = .layout_right_padded ∧ m.rank > 2 ∧
          m.stride (m.rank - 2) ≠ m.extent (m.rank - 1) then .aborted
      else .returned
        { dimension := ctor_arguments m.rank m.extent KOKKOS_IMPL_CTOR_DEFAULT_ARG
          stride :=
            if m.rank > 1 ∧ m.layout_type = .layout_left_padded then m.stride 1
            else if m.layout_type = .layout_right_padded ∧ m.rank = 2 then m.stride 0
            else KOKKOS_IMPL_CTOR_DEFAULT_ARG } := by
  unfold layout_type_from_mapping LayoutLR.ctor
  dsimp only []
  generalize ctor_arguments m.rank m.extent KOKKOS_IMPL_CTOR_DEFAULT_ARG = v
  generalize m.stride (m.rank - 2) = a
  generalize m.extent (m.rank - 1) = b
  generalize m.stride 0 = s0
  generalize m.stride 1 = s1
  generalize m.layout_type = t
  generalize m.rank = r
  split_ifs <;> simp_all

/-- The dimension slots of the descriptor built for a `LayoutLeft` / `LayoutRight`
target. -/
theorem layout_type_from_mapping_dimension (L : LeftRight) (m : Mapping) (d : LayoutLR)
    (h : layout_type_from_mapping L m = .returned d) (i : Fin 8) :
    d.dimension i = if m.rank > i.val then m.extent i.val else KOKKOS_IMPL_CTOR_DEFAULT_ARG := by
  rw [← ctor_arguments_apply m.rank m.extent KOKKOS_IMPL_CTOR_DEFAULT_ARG i]
  rw [layout_type_from_mapping_eq] at h
  split at h
  · cases h
  · cases h; rfl

/-- The `stride` field of the descriptor built for a `LayoutLeft` / `LayoutRight`
target. -/
theorem layout_type_from_mapping_stride_field (L : LeftRight) (m : Mapping) (d : LayoutLR)
    (h : layout_type_from_mapping L m = .returned d) :
    d.stride =
      if m.rank > 1 ∧ m.layout_type = .layout_left_padded then m.stride 1
      else if m.layout_type = .layout_right_padded ∧ m.rank = 2 then m.stride 0
      else KOKKOS_IMPL_CTOR_DEFAULT_ARG := by
  rw [layout_type_from_mapping_eq] at h
  split at h
  · cases h
  · cases h; rfl

/-- Reading the first `rank` dimension slots of a descriptor whose slots agree
with the mapping's extents gives back the extents. -/
theorem pack_eq_extents (a : Fin 8 → Nat) (m : Mapping) (h8 : m.rank ≤ 8)
    (ha : ∀ i : Fin 8, i.val < m.rank → a i = m.extent i.val) :
    pack a m.rank = m.extents := by
  apply list_eq_of_getD
  · exact pack_length _ _ h8
  · intro n hn
    have hn8 : n < 8 := lt_of_lt_of_le hn h8
    rw [pack_getD a m.rank ⟨n, hn8⟩ hn, ha ⟨n, hn8⟩ hn]
    rfl

theorem pack_layout_type_from_mapping (L : LeftRight) (m : Mapping) (d : LayoutLR)
    (h8 : m.rank ≤ 8) (h : layout_type_from_mapping L m = .returned d) :
    pack d.dimension m.rank = m.extents := by
  apply pack_eq_extents _ _ h8
  intro i hi
  rw [layout_type_from_mapping_dimension L m d h i]
  simp [hi]

/-- A mapping that is not padded gets the descriptor built by the extent
constructor alone: the `stride` field stays at the sentinel. -/
theorem layout_type_from_mapping_unpadded (L : LeftRight) (m : Mapping)
    (h1 : m.layout_type ≠ .layout_left_padded) (h2 : m.layout_type ≠ .layout_right_padded) :
    layout_type_from_mapping L m
      = .returned (LayoutLR.ctor (ctor_arguments m.rank m.extent KOKKOS_IMPL_CTOR_DEFAULT_ARG)) := by
  rw [layout_type_from_mapping_eq]
  simp [h1, h2, LayoutLR.ctor]

/-- A plain `layout_left` / `layout_right` target is built from the extents only. -/
theorem mapping_from_layout_type_plain (T : ExtentsLayout) (rank : Nat) (L : LeftRight)
    (d : LayoutLR) (hT : T = .layout_left ∨ T = .layout_right) :
    mapping_from_layout_type T rank L d
      = .returned (Mapping.from_extents T (pack d.dimension rank)) := by
  unfold mapping_from_layout_type mapping_from_layout_type_impl
  rw [if_pos hT]

/-- C2. Unpadded Left/Right round trip: for every contiguous `layout_left` (resp.
`layout_right`) mapping with extents `e` of rank at most 8, converting it to a
`LayoutLeft` (resp. `LayoutRight`) descriptor and back to the same mapping type
neither aborts nor misses its return; the mapping obtained has rank `R`,
`extent(i)` equal to the original extent and `stride(i)` equal to the natural
unpadded stride (product of the extents `0 .. i-1` for Left, product of the
extents `i+1 .. R-1` for Right) for every `i < R`. -/
theorem contiguous_round_trip (e : List Nat) (hR : e.length ≤ LAYOUT_TYPE_MAX_RANK) :
    (∃ m', (layout_type_from_mapping .LayoutLeft (Mapping.layout_left e)).bind
          (mapping_from_layout_type .layout_left e.length .LayoutLeft) = .returned m' ∧
        m'.layout_type = .layout_left ∧ m'.rank = e.length ∧
        ∀ i, i < e.length →
          m'.extent i = e.getD i 0 ∧ m'.stride i = (e.take i).prod) ∧
    (∃ m', (layout_type_from_mapping .LayoutRight (Mapping.layout_right e)).bind
          (mapping_from_layout_type .layout_right e.length .LayoutRight) = .returned m' ∧
        m'.layout_type = .layout_right ∧ m'.rank = e.length ∧
        ∀ i, i < e.length →
          m'.extent i = e.getD i 0 ∧ m'.stride i = (e.drop (i + 1)).prod) := by
  constructor
  · have hd := layout_type_from_mapping_unpadded .LayoutLeft (Mapping.layout_left e)
      (by simp [Mapping.layout_type]) (by simp [Mapping.layout_type])
    have hp := pack_layout_type_from_mapping .LayoutLeft (Mapping.layout_left e) _ hR hd
    refine ⟨Mapping.layout_left e, ?_, rfl, rfl, fun i _ => ⟨rfl, ?_⟩⟩
    · rw [hd, Outcome.bind, mapping_from_layout_type_plain _ _ _ _ (Or.inl rfl)]
      exact congrArg (fun x => Outcome.returned (Mapping.layout_left x)) hp
    · simp [Mapping.stride, extent_product]
  · have hd := layout_type_from_mapping_unpadded .LayoutRight (Mapping.layout_right e)
      (by simp [Mapping.layout_type]) (by simp [Mapping.layout_type])
    have hp := pack_layout_type_from_mapping .LayoutRight (Mapping.layout_right e) _ hR hd
    refine ⟨Mapping.layout_right e, ?_, rfl, rfl, fun i _ => ⟨rfl, ?_⟩⟩
    · rw [hd, Outcome.bind, mapping_from_layout_type_plain _ _ _ _ (Or.inr rfl)]
      exact congrArg (fun x => Outcome.returned (Mapping.layout_right x)) hp
    · simp [Mapping.stride, extent_product]

/-- C2 at the extents `(2, 3, 4)`. -/
theorem contiguous_round_trip_witness :
    [2, 3, 4].length ≤ LAYOUT_TYPE_MAX_RANK ∧
    (∃ m', (layout_type_from_mapping .LayoutLeft (Mapping.layout_left [2, 3, 4])).bind
          (mapping_from_layout_type .layout_left [2, 3, 4].length .LayoutLeft) = .returned m' ∧
        m'.layout_type = .layout_left ∧ m'.rank = [2, 3, 4].length ∧
        ∀ i, i < [2, 3, 4].length →
          m'.extent i = [2, 3, 4].getD i 0 ∧ m'.stride i = ([2, 3, 4].take i).prod) ∧
    (∃ m', (layout_type_from_mapping .LayoutRight (Mapping.layout_right [2, 3, 4])).bind
          (mapping_from_layout_type .layout_right [2, 3, 4].length .LayoutRight) = .returned m' ∧
        m'.layout_type = .layout_right ∧ m'.rank = [2, 3, 4].length ∧
        ∀ i, i < [2, 3, 4].length →
          m'.extent i = [2, 3, 4].getD i 0 ∧ m'.stride i = ([2, 3, 4].drop (i + 1)).prod) :=
  ⟨by decide, contiguous_round_trip [2, 3, 4] (by decide)⟩

/-! ## Case analysis of the generic descriptor → mapping conversion -/

theorem extent_product_self (e : List Nat) (k : Nat) : extent_product e k k = 1 := by
  unfold extent_product
  rw [List.drop_eq_nil_of_le (by simp), List.prod_nil]

/-- With a sentinel stride or a rank below 2 the mapping is built from the
extents alone, whatever the target policy. -/
theorem mapping_from_layout_type_sentinel (T : ExtentsLayout) (rank : Nat) (L : LeftRight)
    (d : LayoutLR) (h : d.stride = KOKKOS_IMPL_CTOR_DEFAULT_ARG ∨ rank < 2) :
    mapping_from_layout_type T rank L d
      = .returned (Mapping.from_extents T (pack d.dimension rank)) := by
  unfold mapping_from_layout_type mapping_from_layout_type_impl
  rw [if_pos h]
  split_ifs <;> rfl

/-- With a concrete stride, rank at least 2 and a padded target, every
instantiation other than `LayoutRight` at rank above 2 builds the mapping from
the extents plus the stride. -/
theorem mapping_from_layout_type_concrete (T : ExtentsLayout) (rank : Nat) (L : LeftRight)
    (d : LayoutLR) (hT : T = .layout_left_padded ∨ T = .layout_right_padded)
    (hs : d.stride ≠ KOKKOS_IMPL_CTOR_DEFAULT_ARG) (hr : 2 ≤ rank)
    (hL : ¬ (L = .LayoutRight ∧ rank > 2)) :
    mapping_from_layout_type T rank L d
      = .returned (Mapping.from_extents_stride T (pack d.dimension rank) d.stride) := by
  unfold mapping_from_layout_type mapping_from_layout_type_impl
  have h1 : ¬ (T = .layout_left ∨ T = .layout_right) := by
    rcases hT with h | h <;> rw [h] <;> decide
  have h2 : ¬ (d.stride = KOKKOS_IMPL_CTOR_DEFAULT_ARG ∨ rank < 2) := by
    rintro (h | h)
    · exact hs h
    · omega
  rw [if_neg h1, if_neg h2, if_neg hL]

/-- With a concrete stride and a padded target, the `LayoutRight` instantiation
at rank above 2 only validates: it aborts on a mismatch and otherwise leaves
the function without a `return`. -/
theorem mapping_from_layout_type_right_validation (T : ExtentsLayout) (rank : Nat)
    (d : LayoutLR) (hT : T = .layout_left_padded ∨ T = .layout_right_padded)
    (hs : d.stride ≠ KOKKOS_IMPL_CTOR_DEFAULT_ARG) (hr : 2 < rank) :
    mapping_from_layout_type T rank .LayoutRight d
      = if product_of_dimensions d rank ≠ d.stride then .aborted else .no_return := by
  unfold mapping_from_layout_type mapping_from_layout_type_impl
  have h1 : ¬ (T = .layout_left ∨ T = .layout_right) := by
    rcases hT with h | h <;> rw [h] <;> decide
  have h2 : ¬ (d.stride = KOKKOS_IMPL_CTOR_DEFAULT_ARG ∨ rank < 2) := by
    rintro (h | h)
    · exact hs h
    · omega
  rw [if_neg h1, if_neg h2, if_pos ⟨rfl, hr⟩]

theorem agrees_refl (m : Mapping) : m.agrees m :=
  ⟨rfl, fun _ _ => ⟨rfl, rfl⟩⟩

theorem padded_stride_one_left (e : List Nat) (p : Nat) :
    (Mapping.layout_left_padded e p).stride 1 = p := by
  simp [Mapping.stride, extent_product_self]

theorem padded_stride_right (e : List Nat) (p : Nat) (h : 2 ≤ e.length) :
    (Mapping.layout_right_padded e p).stride (e.length - 2) = p := by
  have h1 : e.length - 2 + 1 = e.length - 1 := by omega
  have h2 : ¬ (e.length - 1 = e.length) := by omega
  simp [Mapping.stride, h1, h2, extent_product_self]

/-- A returned descriptor means that the padded-right validation did not fire. -/
theorem layout_type_from_mapping_returned (L : LeftRight) (m : Mapping) (d : LayoutLR)
    (h : layout_type_from_mapping L m = .returned d) :
    ¬ (m.layout_type = .layout_right_padded ∧ m.rank > 2 ∧
        m.stride (m.rank - 2) ≠ m.extent (m.rank - 1)) := by
  intro hc
  rw [layout_type_from_mapping_eq, if_pos hc] at h
  cases h

/-! ## Padded round trip -/

/-- C3, as stated, fails when the padded stride collides with the sentinel: the
padded-left mapping of rank 2 with extents `(1, 1)` and `stride(1) = 2^64 - 1`
is converted to a `LayoutLeft` descriptor without abort, and converting back
returns the contiguous mapping, whose `stride(1)` is `1`. -/
theorem sentinel_collision_round_trip :
    (layout_type_from_mapping .LayoutLeft
        (Mapping.layout_left_padded [1, 1] KOKKOS_IMPL_CTOR_DEFAULT_ARG)).bind
        (mapping_from_layout_type .layout_left_padded 2 .LayoutLeft)
      = .returned (Mapping.layout_left_padded [1, 1] 1) ∧
    (Mapping.layout_left_padded [1, 1] KOKKOS_IMPL_CTOR_DEFAULT_ARG).stride 1
      = 18446744073709551615 ∧
    (Mapping.layout_left_padded [1, 1] 1).stride 1 = 1 ∧
    ¬ (Mapping.layout_left_padded [1, 1] 1).agrees
        (Mapping.layout_left_padded [1, 1] KOKKOS_IMPL_CTOR_DEFAULT_ARG) := by
  refine ⟨by decide, by decide, by decide, ?_⟩
  intro h
  have h1 := (h.2 1 (by decide)).2
  revert h1
  decide

/-- C3, amended. Padded round trip: for every padded-left or padded-right mapping
of rank at most 8 (extents `e`, padded stride `p`) on which
`layout_type_from_mapping` to the family's legacy layout returns a descriptor
`d`, and whose padded stride is not numerically the sentinel at the ranks where
the descriptor carries it (padded-left with rank above 1, padded-right with
rank 2), converting `d` back to the mapping's own padded type returns a mapping
of that type with the same rank, the same `extent(i)` and the same `stride(i)`
for every `i` below the rank. -/
theorem padded_round_trip (L : LeftRight) (e : List Nat) (p : Nat)
    (hR : e.length ≤ LAYOUT_TYPE_MAX_RANK)
    (hp : carries_padded_stride L e.length → p ≠ KOKKOS_IMPL_CTOR_DEFAULT_ARG)
    (d : LayoutLR) (hd : layout_type_from_mapping L (padded_mapping L e p) = .returned d) :
    ∃ m', mapping_from_layout_type (LayoutFromLayoutType L) e.length L d = .returned m' ∧
      m'.layout_type = (padded_mapping L e p).layout_type ∧
      m'.agrees (padded_mapping L e p) := by
  have hpk := pack_layout_type_from_mapping L (padded_mapping L e p) d
    (by cases L <;> exact hR) hd
  have hst := layout_type_from_mapping_stride_field L (padded_mapping L e p) d hd
  have hrk : (padded_mapping L e p).rank = e.length := by cases L <;> rfl
  have hex : (padded_mapping L e p).extents = e := by cases L <;> rfl
  rw [hrk, hex] at hpk
  rw [hrk] at hst
  cases L with
  | LayoutLeft =>
      simp only [padded_mapping, Mapping.layout_type, and_true, if_false, false_and,
        reduceCtorEq] at hst
      by_cases h2 : e.length > 1
      · rw [if_pos h2, padded_stride_one_left] at hst
        have hs : d.stride ≠ KOKKOS_IMPL_CTOR_DEFAULT_ARG := by rw [hst]; exact hp h2
        refine ⟨_, mapping_from_layout_type_concrete _ _ _ _ (Or.inl rfl) hs h2 (by simp), ?_⟩
        rw [hpk, hst]
        exact ⟨rfl, agrees_refl _⟩
      · rw [if_neg h2] at hst
        refine ⟨_, mapping_from_layout_type_sentinel _ _ _ _ (Or.inl hst), ?_⟩
        rw [hpk]
        refine ⟨rfl, rfl, fun i hi => ⟨rfl, ?_⟩⟩
        have hi0 : i = 0 := by
          have : i < e.length := hi
          omega
        simp [hi0, Mapping.from_extents, LayoutFromLayoutType, Mapping.stride, padded_mapping]
  | LayoutRight =>
      have hna := layout_type_from_mapping_returned _ _ _ hd
      simp only [padded_mapping, Mapping.layout_type, true_and, and_false, if_false,
        reduceCtorEq] at hst hna
      by_cases h2 : e.length = 2
      · rw [if_pos h2] at hst
        have h2' : 2 ≤ e.length := by omega
        have hp0 := padded_stride_right e p h2'
        rw [h2] at hp0
        rw [hp0] at hst
        have hs : d.stride ≠ KOKKOS_IMPL_CTOR_DEFAULT_ARG := by rw [hst]; exact hp h2
        refine ⟨_, mapping_from_layout_type_concrete _ _ _ _ (Or.inr rfl) hs h2' (by omega), ?_⟩
        rw [hpk, hst]
        exact ⟨rfl, agrees_refl _⟩
      · rw [if_neg h2] at hst
        refine ⟨_, mapping_from_layout_type_sentinel _ _ _ _ (Or.inl hst), ?_⟩
        rw [hpk]
        by_cases h3 : e.length > 2
        · have hpe : p = e.getD (e.length - 1) 0 := by
            have := padded_stride_right e p (by omega)
            by_contra hne
            apply hna
            refine ⟨h3, ?_⟩
            show (Mapping.layout_right_padded e p).stride (e.length - 2) ≠ e.getD (e.length - 1) 0
            rw [this]
            exact hne
          rw [hpe]
          exact ⟨rfl, agrees_refl _⟩
        · refine ⟨rfl, rfl, fun i hi => ⟨rfl, ?_⟩⟩
          have hlen : e.length = 1 := by
            have : i < e.length := hi
            omega
          have hi0 : i = 0 := by
            have : i < e.length := hi
            omega
          simp [hi0, hlen, Mapping.from_extents, LayoutFromLayoutType, Mapping.stride,
            padded_mapping]

/-- C3, amended, at the padded-left mapping with extents `(2, 3, 4)` and
`stride(1) = 8`, whose descriptor has `stride = 8`. -/
theorem padded_round_trip_witness :
    [2, 3, 4].length ≤ LAYOUT_TYPE_MAX_RANK ∧
    (carries_padded_stride .LayoutLeft [2, 3, 4].length → 8 ≠ KOKKOS_IMPL_CTOR_DEFAULT_ARG) ∧
    layout_type_from_mapping .LayoutLeft (padded_mapping .LayoutLeft [2, 3, 4] 8)
      = .returned ⟨![2, 3, 4, KOKKOS_IMPL_CTOR_DEFAULT_ARG, KOKKOS_IMPL_CTOR_DEFAULT_ARG,
          KOKKOS_IMPL_CTOR_DEFAULT_ARG, KOKKOS_IMPL_CTOR_DEFAULT_ARG,
          KOKKOS_IMPL_CTOR_DEFAULT_ARG], 8⟩ ∧
    ∃ m', mapping_from_layout_type (LayoutFromLayoutType .LayoutLeft) [2, 3, 4].length .LayoutLeft
          ⟨![2, 3, 4, KOKKOS_IMPL_CTOR_DEFAULT_ARG, KOKKOS_IMPL_CTOR_DEFAULT_ARG,
          KOKKOS_IMPL_CTOR_DEFAULT_ARG, KOKKOS_IMPL_CTOR_DEFAULT_ARG,
          KOKKOS_IMPL_CTOR_DEFAULT_ARG], 8⟩
        = .returned m' ∧
      m'.layout_type = (padded_mapping .LayoutLeft [2, 3, 4] 8).layout_type ∧
      m'.agrees (padded_mapping .LayoutLeft [2, 3, 4] 8) :=
  ⟨by decide, fun _ => by decide, by decide,
    padded_round_trip .LayoutLeft [2, 3, 4] 8 (by decide) (fun _ => by decide) _ (by decide)⟩

/-! ## Padding preservation and the rejected lossy conversion -/

/-- C4, as stated, fails: the padded-right mapping of rank 3 with extents
`(4, 5, 6)` and `stride(1) = 8` is rejected by `layout_type_from_mapping` to
`LayoutRight` (8 differs from `extent(2) = 6`); no descriptor with `stride = 8`
is returned, so nothing is converted back. -/
theorem padding_preservation_rank3_rejected :
    (Mapping.layout_right_padded [4, 5, 6] 8).stride 1 = 8 ∧
    layout_type_from_mapping .LayoutRight (Mapping.layout_right_padded [4, 5, 6] 8) = .aborted ∧
    ¬ ∃ d, layout_type_from_mapping .LayoutRight (Mapping.layout_right_padded [4, 5, 6] 8)
          = .returned d ∧ d.stride = 8 ∧
        ∃ m', mapping_from_layout_type .layout_right_padded 3 .LayoutRight d = .returned m' ∧
          m'.stride 1 = 8 := by
  have habort : layout_type_from_mapping .LayoutRight (Mapping.layout_right_padded [4, 5, 6] 8)
      = .aborted := by decide
  refine ⟨by decide, habort, ?_⟩
  rintro ⟨d, hd, _⟩
  rw [habort] at hd
  cases hd

/-- C4, amended. At rank 3 the padded-right mapping with extents `(4, 5, 6)` and
`stride(1) = 8` makes `layout_type_from_mapping` to `LayoutRight` abort.  Padding
is preserved at rank 2: for the padded-right mapping with extents `(5, 6)` and
`stride(0) = 8` the descriptor has dimensions `(5, 6)` and `stride = 8`, and
converting it back returns the padded-right mapping with `stride(0) = 8`. -/
theorem padding_preservation_rank2 :
    layout_type_from_mapping .LayoutRight (Mapping.layout_right_padded [4, 5, 6] 8) = .aborted ∧
    (Mapping.layout_right_padded [5, 6] 8).stride 0 = 8 ∧
    layout_type_from_mapping .LayoutRight (Mapping.layout_right_padded [5, 6] 8)
      = .returned ⟨![5, 6, KOKKOS_IMPL_CTOR_DEFAULT_ARG, KOKKOS_IMPL_CTOR_DEFAULT_ARG,
          KOKKOS_IMPL_CTOR_DEFAULT_ARG, KOKKOS_IMPL_CTOR_DEFAULT_ARG,
          KOKKOS_IMPL_CTOR_DEFAULT_ARG, KOKKOS_IMPL_CTOR_DEFAULT_ARG], 8⟩ ∧
    (layout_type_from_mapping .LayoutRight (Mapping.layout_right_padded [5, 6] 8)).bind
        (mapping_from_layout_type .layout_right_padded 2 .LayoutRight)
      = .returned (Mapping.layout_right_padded [5, 6] 8) := by
  refine ⟨by decide, by decide, by decide, by decide⟩

/-- C5. Rejected lossy conversion: for every rank `R` with `2 < R ≤ 8` and every
`LayoutRight` descriptor whose stride is concrete (not the sentinel) and
differs from the product of `dimension[1 .. R)` (the product being the `size_t`
value the loop computes, i.e. taken modulo `2^64`), `mapping_from_layout_type`
to the padded-right mapping type aborts and returns no mapping. -/
theorem rejected_lossy_conversion (rank : Nat) (h2 : 2 < rank)
    (_h8 : rank ≤ LAYOUT_TYPE_MAX_RANK) (d : LayoutLR)
    (hs : d.stride ≠ KOKKOS_IMPL_CTOR_DEFAULT_ARG)
    (hp : d.stride ≠ ((pack d.dimension rank).drop 1).prod % SIZE_T_MODULUS) :
    mapping_from_layout_type .layout_right_padded rank .LayoutRight d = .aborted := by
  rw [mapping_from_layout_type_right_validation _ _ _ (Or.inr rfl) hs h2,
    product_of_dimensions_eq]
  exact if_pos (Ne.symm hp)

/-- C5 at the descriptor `dimension = (4, 5, 6)`, `stride = 8` (while `5 * 6 = 30`). -/
theorem rejected_lossy_conversion_witness :
    2 < 3 ∧ 3 ≤ LAYOUT_TYPE_MAX_RANK ∧
    (8 : Nat) ≠ KOKKOS_IMPL_CTOR_DEFAULT_ARG ∧
    (8 : Nat) ≠ ([4, 5, 6].drop 1).prod % SIZE_T_MODULUS ∧
    mapping_from_layout_type .layout_right_padded 3 .LayoutRight
      ⟨![4, 5, 6, KOKKOS_IMPL_CTOR_DEFAULT_ARG, KOKKOS_IMPL_CTOR_DEFAULT_ARG,
          KOKKOS_IMPL_CTOR_DEFAULT_ARG, KOKKOS_IMPL_CTOR_DEFAULT_ARG,
          KOKKOS_IMPL_CTOR_DEFAULT_ARG], 8⟩ = .aborted :=
  ⟨by decide, by decide, by decide, by decide,
    rejected_lossy_conversion 3 (by decide) (by decide) _ (by decide) (by decide)⟩

/-- C6, the code at a consistent `LayoutRight` descriptor: for `dimension = (4, 5, 6)`
and the concrete `stride = 30 = 5 * 6`, target padded-right of rank 3, the
validation passes and the function body ends without a `return` statement, so
no mapping is constructed. -/
theorem consistent_right_descriptor_no_return :
    product_of_dimensions
      ⟨![4, 5, 6, KOKKOS_IMPL_CTOR_DEFAULT_ARG, KOKKOS_IMPL_CTOR_DEFAULT_ARG,
          KOKKOS_IMPL_CTOR_DEFAULT_ARG, KOKKOS_IMPL_CTOR_DEFAULT_ARG,
          KOKKOS_IMPL_CTOR_DEFAULT_ARG], 30⟩ 3 = 30 ∧
    mapping_from_layout_type .layout_right_padded 3 .LayoutRight
      ⟨![4, 5, 6, KOKKOS_IMPL_CTOR_DEFAULT_ARG, KOKKOS_IMPL_CTOR_DEFAULT_ARG,
          KOKKOS_IMPL_CTOR_DEFAULT_ARG, KOKKOS_IMPL_CTOR_DEFAULT_ARG,
          KOKKOS_IMPL_CTOR_DEFAULT_ARG], 30⟩ = .no_return := by
  refine ⟨by decide, by decide⟩


theorem from_extents_rank (T : ExtentsLayout) (e : List Nat) :
    (Mapping.from_extents T e).rank = e.length := by
  cases T <;> rfl

theorem from_extents_extent (T : ExtentsLayout) (e : List Nat) (i : Nat) :
    (Mapping.from_extents T e).extent i = e.getD i 0 := by
  cases T <;> rfl

theorem left_padded_natural (e : List Nat) (i : Nat) (hi : i < e.length) :
    (Mapping.layout_left_padded e (e.getD 0 0)).stride i = (e.take i).prod := by
  cases e with
  | nil => simp at hi
  | cons a t =>
      cases i with
      | zero => simp [Mapping.stride]
      | succ j => simp [Mapping.stride, extent_product]

theorem right_padded_natural (e : List Nat) (i : Nat) (hi : i < e.length) :
    (Mapping.layout_right_padded e (e.getD (e.length - 1) 0)).stride i
      = (e.drop (i + 1)).prod := by
  show (if i + 1 = e.length then 1
      else e.getD (e.length - 1) 0 * extent_product e (i + 1) (e.length - 1)) = _
  by_cases h : i + 1 = e.length
  · rw [if_pos h, h, List.drop_length, List.prod_nil]
  · rw [if_neg h]
    have hlast : e.length - 1 < e.length := by omega
    have hsplit : e = e.take (e.length - 1) ++ [e.getD (e.length - 1) 0] := by
      rw [List.getD_eq_getElem _ _ hlast]
      conv_lhs => rw [← List.take_append_drop (e.length - 1) e]
      congr 1
      rw [List.drop_eq_getElem_cons hlast]
      have : e.length - 1 + 1 = e.length := by omega
      rw [this, List.drop_length]
    have hlen : i + 1 ≤ (e.take (e.length - 1)).length := by
      rw [List.length_take]; omega
    conv_rhs => rw [hsplit, List.drop_append_of_le_length hlen, List.prod_append]
    unfold extent_product
    simp [Nat.mul_comm]

theorem from_extents_natural (T : ExtentsLayout) (e : List Nat) (i : Nat) (hi : i < e.length) :
    (Mapping.from_extents T e).stride i = natural_stride T.family e i := by
  cases T with
  | layout_left => simp [Mapping.from_extents, Mapping.stride, extent_product,
      natural_stride, ExtentsLayout.family]
  | layout_right => simp [Mapping.from_extents, Mapping.stride, extent_product,
      natural_stride, ExtentsLayout.family]
  | layout_left_padded => exact left_padded_natural e i hi
  | layout_right_padded => exact right_padded_natural e i hi

theorem LayoutFromLayoutType_family (F : LeftRight) : (LayoutFromLayoutType F).family = F := by
  cases F <;> rfl

/-- Two eight-slot arrays that agree below `rank` give the same pack. -/
theorem pack_congr (a b : Fin 8 → Nat) (rank : Nat) (h8 : rank ≤ 8)
    (h : ∀ i : Fin 8, i.val < rank → a i = b i) : pack a rank = pack b rank := by
  apply list_eq_of_getD
  · rw [pack_length _ _ h8, pack_length _ _ h8]
  · intro n hn
    rw [pack_length _ _ h8] at hn
    have hn8 : n < 8 := lt_of_lt_of_le hn h8
    rw [pack_getD a rank ⟨n, hn8⟩ hn, pack_getD b rank ⟨n, hn8⟩ hn]
    exact h ⟨n, hn8⟩ hn

/-! ## Descriptor → mapping: sentinel, concrete stride, `LayoutStride` -/

/-- C7. Sentinel and low-rank degeneracy: for every `LayoutLeft` / `LayoutRight`
descriptor converted to a padded target (padded-left or padded-right) of rank
`R ≤ 8`, if the descriptor's stride is the sentinel or `R < 2`, the result is
exactly the contiguous mapping built from `dimension[0 .. R)` alone: it has
rank `R`, `extent(i) = dimension[i]` and `stride(i)` equal to the natural stride
of the target's family for every `i < R`, and it is the same for every stride
value meeting the condition, so neither the sentinel's numeric value nor an
ignored concrete stride enters it. -/
theorem sentinel_low_rank_degeneracy (F L : LeftRight) (rank : Nat)
    (h8 : rank ≤ LAYOUT_TYPE_MAX_RANK) (d : LayoutLR)
    (h : d.stride = KOKKOS_IMPL_CTOR_DEFAULT_ARG ∨ rank < 2) :
    ∃ m', mapping_from_layout_type (LayoutFromLayoutType F) rank L d = .returned m' ∧
      m' = Mapping.from_extents (LayoutFromLayoutType F) (pack d.dimension rank) ∧
      m'.rank = rank ∧
      (∀ i : Fin 8, i.val < rank →
        m'.extent i.val = d.dimension i ∧
        m'.stride i.val = natural_stride F (pack d.dimension rank) i.val) ∧
      (∀ s', (s' = KOKKOS_IMPL_CTOR_DEFAULT_ARG ∨ rank < 2) →
        mapping_from_layout_type (LayoutFromLayoutType F) rank L ⟨d.dimension, s'⟩
          = .returned m') := by
  have hlen := pack_length d.dimension rank h8
  refine ⟨_, mapping_from_layout_type_sentinel _ _ _ _ h, rfl, ?_, ?_, ?_⟩
  · rw [from_extents_rank, hlen]
  · intro i hi
    refine ⟨?_, ?_⟩
    · rw [from_extents_extent, pack_getD _ _ i hi]
    · rw [from_extents_natural _ _ _ (by rw [hlen]; exact hi), LayoutFromLayoutType_family]
  · intro s' hs'
    exact mapping_from_layout_type_sentinel _ _ _ ⟨d.dimension, s'⟩ hs'

/-- C7 at the `LayoutLeft` descriptor with dimensions `(2, 3, 4)` and the sentinel
stride, target padded-left of rank 3: the result is the contiguous mapping and
its `stride(1)` is `2`. -/
theorem sentinel_low_rank_degeneracy_witness :
    3 ≤ LAYOUT_TYPE_MAX_RANK ∧
    (KOKKOS_IMPL_CTOR_DEFAULT_ARG = KOKKOS_IMPL_CTOR_DEFAULT_ARG ∨ 3 < 2) ∧
    (∃ m', mapping_from_layout_type (LayoutFromLayoutType .LayoutLeft) 3 .LayoutLeft
          ⟨![2, 3, 4, KOKKOS_IMPL_CTOR_DEFAULT_ARG, KOKKOS_IMPL_CTOR_DEFAULT_ARG,
            KOKKOS_IMPL_CTOR_DEFAULT_ARG, KOKKOS_IMPL_CTOR_DEFAULT_ARG,
            KOKKOS_IMPL_CTOR_DEFAULT_ARG], KOKKOS_IMPL_CTOR_DEFAULT_ARG⟩ = .returned m' ∧
      m' = Mapping.from_extents (LayoutFromLayoutType .LayoutLeft)
          (pack ![2, 3, 4, KOKKOS_IMPL_CTOR_DEFAULT_ARG, KOKKOS_IMPL_CTOR_DEFAULT_ARG,
            KOKKOS_IMPL_CTOR_DEFAULT_ARG, KOKKOS_IMPL_CTOR_DEFAULT_ARG,
            KOKKOS_IMPL_CTOR_DEFAULT_ARG] 3) ∧
      m'.rank = 3 ∧
      (∀ i : Fin 8, i.val < 3 →
        m'.extent i.val = (![2, 3, 4, KOKKOS_IMPL_CTOR_DEFAULT_ARG,
            KOKKOS_IMPL_CTOR_DEFAULT_ARG, KOKKOS_IMPL_CTOR_DEFAULT_ARG,
            KOKKOS_IMPL_CTOR_DEFAULT_ARG, KOKKOS_IMPL_CTOR_DEFAULT_ARG] : Fin 8 → Nat) i ∧
        m'.stride i.val = natural_stride .LayoutLeft
          (pack ![2, 3, 4, KOKKOS_IMPL_CTOR_DEFAULT_ARG, KOKKOS_IMPL_CTOR_DEFAULT_ARG,
            KOKKOS_IMPL_CTOR_DEFAULT_ARG, KOKKOS_IMPL_CTOR_DEFAULT_ARG,
            KOKKOS_IMPL_CTOR_DEFAULT_ARG] 3) i.val) ∧
      (∀ s', (s' = KOKKOS_IMPL_CTOR_DEFAULT_ARG ∨ 3 < 2) →
        mapping_from_layout_type (LayoutFromLayoutType .LayoutLeft) 3 .LayoutLeft
          ⟨![2, 3, 4, KOKKOS_IMPL_CTOR_DEFAULT_ARG, KOKKOS_IMPL_CTOR_DEFAULT_ARG,
            KOKKOS_IMPL_CTOR_DEFAULT_ARG, KOKKOS_IMPL_CTOR_DEFAULT_ARG,
            KOKKOS_IMPL_CTOR_DEFAULT_ARG], s'⟩ = .returned m')) ∧
    (Mapping.from_extents (LayoutFromLayoutType .LayoutLeft)
        (pack ![2, 3, 4, KOKKOS_IMPL_CTOR_DEFAULT_ARG, KOKKOS_IMPL_CTOR_DEFAULT_ARG,
          KOKKOS_IMPL_CTOR_DEFAULT_ARG, KOKKOS_IMPL_CTOR_DEFAULT_ARG,
          KOKKOS_IMPL_CTOR_DEFAULT_ARG] 3)).stride 1 = 2 :=
  ⟨by decide, Or.inl rfl,
    sentinel_low_rank_degeneracy .LayoutLeft .LayoutLeft 3 (by decide) _ (Or.inl rfl),
    by decide⟩

/-- C8. Concrete-stride construction: for every `LayoutLeft` descriptor with rank
`R ≥ 2`, or `LayoutRight` descriptor with rank `R = 2` (`R ≤ 8`), whose stride
`s` is concrete, `mapping_from_layout_type` to the family's padded target
returns the padded mapping built from `dimension[0 .. R)` plus `s`: it has rank
`R`, `extent(i) = dimension[i]` for all `i < R`, and for Left `stride(0) = 1`,
`stride(1) = s`, for Right (`R = 2`) `stride(0) = s`, `stride(1) = 1`. -/
theorem concrete_stride_construction (L : LeftRight) (rank : Nat)
    (h8 : rank ≤ LAYOUT_TYPE_MAX_RANK) (hr : carries_padded_stride L rank) (d : LayoutLR)
    (hs : d.stride ≠ KOKKOS_IMPL_CTOR_DEFAULT_ARG) :
    ∃ m', mapping_from_layout_type (LayoutFromLayoutType L) rank L d = .returned m' ∧
      m' = padded_mapping L (pack d.dimension rank) d.stride ∧
      m'.rank = rank ∧
      (∀ i : Fin 8, i.val < rank → m'.extent i.val = d.dimension i) ∧
      (match L with
        | .LayoutLeft => m'.stride 0 = 1 ∧ m'.stride 1 = d.stride
        | .LayoutRight => m'.stride 0 = d.stride ∧ m'.stride 1 = 1) := by
  have hlen := pack_length d.dimension rank h8
  cases L with
  | LayoutLeft =>
      have hr' : 2 ≤ rank := hr
      refine ⟨_, mapping_from_layout_type_concrete _ _ _ _ (Or.inl rfl) hs hr' (by simp),
        rfl, hlen, fun i hi => pack_getD _ _ i hi, ?_, ?_⟩
      · simp [LayoutFromLayoutType, Mapping.from_extents_stride, Mapping.stride]
      · exact padded_stride_one_left _ _
  | LayoutRight =>
      have hr' : rank = 2 := hr
      have hlen2 : (pack d.dimension rank).length = 2 := by rw [hlen, hr']
      refine ⟨_, mapping_from_layout_type_concrete _ _ _ _ (Or.inr rfl) hs (by omega) (by omega),
        rfl, hlen, fun i hi => pack_getD _ _ i hi, ?_, ?_⟩
      · have := padded_stride_right (pack d.dimension rank) d.stride (by omega)
        rw [hlen2] at this
        exact this
      · simp [LayoutFromLayoutType, Mapping.from_extents_stride, Mapping.stride, hlen2]

/-- C8 at the `LayoutLeft` descriptor with dimensions `(2, 3, 4)` and `stride = 8`,
target padded-left of rank 3. -/
theorem concrete_stride_construction_witness :
    3 ≤ LAYOUT_TYPE_MAX_RANK ∧ carries_padded_stride .LayoutLeft 3 ∧
    (8 : Nat) ≠ KOKKOS_IMPL_CTOR_DEFAULT_ARG ∧
    ∃ m', mapping_from_layout_type (LayoutFromLayoutType .LayoutLeft) 3 .LayoutLeft
          ⟨![2, 3, 4, KOKKOS_IMPL_CTOR_DEFAULT_ARG, KOKKOS_IMPL_CTOR_DEFAULT_ARG,
            KOKKOS_IMPL_CTOR_DEFAULT_ARG, KOKKOS_IMPL_CTOR_DEFAULT_ARG,
            KOKKOS_IMPL_CTOR_DEFAULT_ARG], 8⟩ = .returned m' ∧
      m' = padded_mapping .LayoutLeft
          (pack ![2, 3, 4, KOKKOS_IMPL_CTOR_DEFAULT_ARG, KOKKOS_IMPL_CTOR_DEFAULT_ARG,
            KOKKOS_IMPL_CTOR_DEFAULT_ARG, KOKKOS_IMPL_CTOR_DEFAULT_ARG,
            KOKKOS_IMPL_CTOR_DEFAULT_ARG] 3) 8 ∧
      m'.rank = 3 ∧
      (∀ i : Fin 8, i.val < 3 →
        m'.extent i.val = (![2, 3, 4, KOKKOS_IMPL_CTOR_DEFAULT_ARG,
            KOKKOS_IMPL_CTOR_DEFAULT_ARG, KOKKOS_IMPL_CTOR_DEFAULT_ARG,
            KOKKOS_IMPL_CTOR_DEFAULT_ARG, KOKKOS_IMPL_CTOR_DEFAULT_ARG] : Fin 8 → Nat) i) ∧
      (m'.stride 0 = 1 ∧ m'.stride 1 = 8) :=
  ⟨by decide, by decide, by decide,
    concrete_stride_construction .LayoutLeft 3 (by decide) (by decide) _ (by decide)⟩

/-- C9. Stride descriptor to mapping is lossless and total: for every rank `R` in
`1 .. 8` and every `LayoutStride` descriptor, `mapping_from_layout_type` to a
`layout_stride` mapping returns (it has no abort path) a mapping of rank `R`
with `extent(i) = dimension[i]` and `stride(i) = stride[i]` for every `i < R`;
descriptors that agree at the positions below `R` give the same result, so the
entries at positions `≥ R` play no part. -/
theorem stride_descriptor_lossless (rank : Nat) (h1 : 1 ≤ rank)
    (h8 : rank ≤ LAYOUT_TYPE_MAX_RANK) (d : LayoutStride) :
    (∃ m, mapping_from_layout_type_stride rank d = .returned m ∧
      m.layout_type = .layout_stride ∧ m.rank = rank ∧
      ∀ i : Fin 8, i.val < rank →
        m.extent i.val = d.dimension i ∧ m.stride i.val = d.stride i) ∧
    (∀ d' : LayoutStride,
      (∀ i : Fin 8, i.val < rank →
        d'.dimension i = d.dimension i ∧ d'.stride i = d.stride i) →
      mapping_from_layout_type_stride rank d' = mapping_from_layout_type_stride rank d) := by
  obtain ⟨r, rfl⟩ : ∃ r, rank = r + 1 := ⟨rank - 1, by omega⟩
  refine ⟨mapping_from_layout_type_stride_spec _ h8 d, ?_⟩
  intro d' hd'
  have hdim := pack_congr d'.dimension d.dimension (r + 1) h8 (fun i hi => (hd' i hi).1)
  have hstr := pack_congr d'.stride d.stride (r + 1) h8 (fun i hi => (hd' i hi).2)
  show Outcome.returned (Mapping.layout_stride (pack d'.dimension (r + 1)) (pack d'.stride (r + 1)))
    = Outcome.returned (Mapping.layout_stride (pack d.dimension (r + 1)) (pack d.stride (r + 1)))
  rw [hdim, hstr]

/-- C9 at rank 3, dimensions `(4, 5, 6)`, strides `(1, 8, 40)`. -/
theorem stride_descriptor_lossless_witness :
    1 ≤ 3 ∧ 3 ≤ LAYOUT_TYPE_MAX_RANK ∧
    (∃ m, mapping_from_layout_type_stride 3
          ⟨![4, 5, 6, 0, 0, 0, 0, 0], ![1, 8, 40, 0, 0, 0, 0, 0]⟩ = .returned m ∧
      m.layout_type = .layout_stride ∧ m.rank = 3 ∧
      ∀ i : Fin 8, i.val < 3 →
        m.extent i.val = (![4, 5, 6, 0, 0, 0, 0, 0] : Fin 8 → Nat) i ∧
        m.stride i.val = (![1, 8, 40, 0, 0, 0, 0, 0] : Fin 8 → Nat) i) ∧
    (∀ d' : LayoutStride,
      (∀ i : Fin 8, i.val < 3 →
        d'.dimension i = (![4, 5, 6, 0, 0, 0, 0, 0] : Fin 8 → Nat) i ∧
        d'.stride i = (![1, 8, 40, 0, 0, 0, 0, 0] : Fin 8 → Nat) i) →
      mapping_from_layout_type_stride 3 d'
        = mapping_from_layout_type_stride 3
            ⟨![4, 5, 6, 0, 0, 0, 0, 0], ![1, 8, 40, 0, 0, 0, 0, 0]⟩) :=
  ⟨by decide, by decide,
    stride_descriptor_lossless 3 (by decide) (by decide)
      ⟨![4, 5, 6, 0, 0, 0, 0, 0], ![1, 8, 40, 0, 0, 0, 0, 0]⟩⟩

/-- C10. Rank-0 degenerate case: for every `LayoutStride` descriptor, whatever its
dimension and stride contents, `mapping_from_layout_type` to a rank-0
`layout_stride` mapping returns the default-constructed mapping (rank 0, no
strides); the result is the same for every descriptor, no element of the
descriptor being read. -/
theorem rank0_stride_default (d : LayoutStride) :
    mapping_from_layout_type_stride 0 d = .returned Mapping.default_stride ∧
    Mapping.default_stride.rank = 0 ∧
    Mapping.default_stride.layout_type = .layout_stride ∧
    ∀ d' : LayoutStride,
      mapping_from_layout_type_stride 0 d' = mapping_from_layout_type_stride 0 d :=
  ⟨rfl, rfl, rfl, fun _ => rfl⟩

/-! ## Exact abort condition and population of the descriptor -/

/-- C11. Exact abort condition of `layout_type_from_mapping`: for every mapping of
rank `R ≤ 8`, the conversion to `LayoutStride` returns a descriptor, and the
conversion to `LayoutLeft` or `LayoutRight` aborts if and only if the mapping is
padded-right, `R > 2` and `stride(R-2)` differs from `extent(R-1)`; on every
other input it returns a descriptor. -/
theorem layout_type_from_mapping_abort_iff (m : Mapping)
    (_hR : m.rank ≤ LAYOUT_TYPE_MAX_RANK) :
    (∃ d, layout_type_from_mapping_stride m = .returned d) ∧
    ∀ L : LeftRight,
      (layout_type_from_mapping L m = .aborted ↔
        (m.layout_type = .layout_right_padded ∧ m.rank > 2 ∧
          m.stride (m.rank - 2) ≠ m.extent (m.rank - 1))) ∧
      (¬ (m.layout_type = .layout_right_padded ∧ m.rank > 2 ∧
          m.stride (m.rank - 2) ≠ m.extent (m.rank - 1)) →
        ∃ d, layout_type_from_mapping L m = .returned d) := by
  refine ⟨⟨_, rfl⟩, fun L => ⟨⟨?_, ?_⟩, ?_⟩⟩
  · intro h
    by_contra hc
    rw [layout_type_from_mapping_eq, if_neg hc] at h
    cases h
  · intro hc
    rw [layout_type_from_mapping_eq, if_pos hc]
  · intro hc
    rw [layout_type_from_mapping_eq, if_neg hc]
    exact ⟨_, rfl⟩

/-- C11 at the padded-right mapping of rank 3 with extents `(4, 5, 6)` and
`stride(1) = 8`, on which the conversion to `LayoutRight` aborts. -/
theorem layout_type_from_mapping_abort_iff_witness :
    (Mapping.layout_right_padded [4, 5, 6] 8).rank ≤ LAYOUT_TYPE_MAX_RANK ∧
    layout_type_from_mapping .LayoutRight (Mapping.layout_right_padded [4, 5, 6] 8)
      = .aborted :=
  ⟨by decide,
    ((layout_type_from_mapping_abort_iff (Mapping.layout_right_padded [4, 5, 6] 8)
      (by decide)).2 .LayoutRight).1.2 (by decide)⟩

/-- C13. Stride-target population: for every mapping `m` of rank `R ≤ 8` (any
family), `layout_type_from_mapping<LayoutStride>(m)` returns a descriptor with
`dimension[i] = m.extent(i)` and `stride[i] = m.stride(i)` for every `i < R`, and
with `dimension[i]` equal to the sentinel and `stride[i] = 0` for every `i` with
`R ≤ i < 8`. -/
theorem stride_target_population (m : Mapping) (_hR : m.rank ≤ LAYOUT_TYPE_MAX_RANK) :
    ∃ d, layout_type_from_mapping_stride m = .returned d ∧
      (∀ i : Fin 8, i.val < m.rank →
        d.dimension i = m.extent i.val ∧ d.stride i = m.stride i.val) ∧
      (∀ i : Fin 8, m.rank ≤ i.val →
        d.dimension i = KOKKOS_IMPL_CTOR_DEFAULT_ARG ∧ d.stride i = 0) := by
  obtain ⟨d, hd, hs⟩ := layout_type_from_mapping_stride_slots m
  refine ⟨d, hd, fun i hi => ?_, fun i hi => ?_⟩
  · have := hs i
    simp only [gt_iff_lt, hi, if_true] at this
    exact this
  · have := hs i
    have hn : ¬ (i.val < m.rank) := by omega
    simp only [gt_iff_lt, hn, if_false] at this
    exact this

/-- C13 at the padded-left mapping of rank 3 with extents `(2, 3, 4)` and
`stride(1) = 8`. -/
theorem stride_target_population_witness :
    (Mapping.layout_left_padded [2, 3, 4] 8).rank ≤ LAYOUT_TYPE_MAX_RANK ∧
    ∃ d, layout_type_from_mapping_stride (Mapping.layout_left_padded [2, 3, 4] 8)
        = .returned d ∧
      (∀ i : Fin 8, i.val < (Mapping.layout_left_padded [2, 3, 4] 8).rank →
        d.dimension i = (Mapping.layout_left_padded [2, 3, 4] 8).extent i.val ∧
        d.stride i = (Mapping.layout_left_padded [2, 3, 4] 8).stride i.val) ∧
      (∀ i : Fin 8, (Mapping.layout_left_padded [2, 3, 4] 8).rank ≤ i.val →
        d.dimension i = KOKKOS_IMPL_CTOR_DEFAULT_ARG ∧ d.stride i = 0) :=
  ⟨by decide, stride_target_population (Mapping.layout_left_padded [2, 3, 4] 8) (by decide)⟩

/-- C14. Left/Right-target population: for every mapping `m` of rank `R ≤ 8` on
which `layout_type_from_mapping` to `LayoutLeft` / `LayoutRight` returns a
descriptor, the descriptor has `dimension[i] = m.extent(i)` for `i < R` and the
sentinel for `R ≤ i < 8`, and its `stride` field is `m.stride(1)` when `m` is
padded-left with `R > 1`, `m.stride(0)` when `m` is padded-right with `R = 2`,
and the sentinel in every other case. -/
theorem left_right_target_population (L : LeftRight) (m : Mapping)
    (_hR : m.rank ≤ LAYOUT_TYPE_MAX_RANK) (d : LayoutLR)
    (hd : layout_type_from_mapping L m = .returned d) :
    (∀ i : Fin 8, i.val < m.rank → d.dimension i = m.extent i.val) ∧
    (∀ i : Fin 8, m.rank ≤ i.val → d.dimension i = KOKKOS_IMPL_CTOR_DEFAULT_ARG) ∧
    (m.layout_type = .layout_left_padded ∧ m.rank > 1 → d.stride = m.stride 1) ∧
    (m.layout_type = .layout_right_padded ∧ m.rank = 2 → d.stride = m.stride 0) ∧
    (¬ (m.layout_type = .layout_left_padded ∧ m.rank > 1) ∧
      ¬ (m.layout_type = .layout_right_padded ∧ m.rank = 2) →
      d.stride = KOKKOS_IMPL_CTOR_DEFAULT_ARG) := by
  have hdim := layout_type_from_mapping_dimension L m d hd
  have hst := layout_type_from_mapping_stride_field L m d hd
  refine ⟨fun i hi => ?_, fun i hi => ?_, ?_, ?_, ?_⟩
  · rw [hdim i]; simp [hi]
  · rw [hdim i]
    have hn : ¬ (i.val < m.rank) := by omega
    simp [hn]
  · rintro ⟨h1, h2⟩
    rw [hst, if_pos ⟨h2, h1⟩]
  · rintro ⟨h1, h2⟩
    have hn : ¬ (m.rank > 1 ∧ m.layout_type = .layout_left_padded) := by
      rintro ⟨_, h⟩; rw [h1] at h; cases h
    rw [hst, if_neg hn, if_pos ⟨h1, h2⟩]
  · rintro ⟨h1, h2⟩
    have hn : ¬ (m.rank > 1 ∧ m.layout_type = .layout_left_padded) := fun h => h1 ⟨h.2, h.1⟩
    rw [hst, if_neg hn, if_neg h2]

/-- C14 at the padded-left mapping of rank 3 with extents `(2, 3, 4)` and
`stride(1) = 8`, whose `LayoutLeft` descriptor carries `stride = 8`. -/
theorem left_right_target_population_witness :
    (Mapping.layout_left_padded [2, 3, 4] 8).rank ≤ LAYOUT_TYPE_MAX_RANK ∧
    layout_type_from_mapping .LayoutLeft (Mapping.layout_left_padded [2, 3, 4] 8)
      = .returned ⟨![2, 3, 4, KOKKOS_IMPL_CTOR_DEFAULT_ARG, KOKKOS_IMPL_CTOR_DEFAULT_ARG,
          KOKKOS_IMPL_CTOR_DEFAULT_ARG, KOKKOS_IMPL_CTOR_DEFAULT_ARG,
          KOKKOS_IMPL_CTOR_DEFAULT_ARG], 8⟩ ∧
    (8 : Nat) = (Mapping.layout_left_padded [2, 3, 4] 8).stride 1 :=
  ⟨by decide, by decide,
    (left_right_target_population .LayoutLeft (Mapping.layout_left_padded [2, 3, 4] 8)
      (by decide) ⟨![2, 3, 4, KOKKOS_IMPL_CTOR_DEFAULT_ARG, KOKKOS_IMPL_CTOR_DEFAULT_ARG,
          KOKKOS_IMPL_CTOR_DEFAULT_ARG, KOKKOS_IMPL_CTOR_DEFAULT_ARG,
          KOKKOS_IMPL_CTOR_DEFAULT_ARG], 8⟩ (by decide)).2.2.1 ⟨rfl, by decide⟩⟩

/-! ## The view path and the plain targets -/

/-- C12. `mapping_from_view_mapping` never validates: for every target mapping
family, every rank `R ≤ 8` and every view extents and stride array
(self-consistent or not) it returns a mapping of the target family with the
view's extents and never aborts; the mapping is built from the full stride
array for the Stride family, from the extents plus `strides[1]` for padded-left
with `R > 1`, from the extents plus `strides[R-2]` for padded-right with `R > 1`,
and from the extents only in every other case. -/
theorem mapping_from_view_mapping_never_validates (T : MappingLayout) (vm : ViewMapping)
    (_hR : vm.Rank ≤ LAYOUT_TYPE_MAX_RANK) :
    ∃ m, mapping_from_view_mapping T vm = .returned m ∧
      m.layout_type = T ∧ m.extents = vm.extents ∧
      (T = .layout_stride → m = Mapping.layout_stride vm.extents vm.stride_fill) ∧
      (T = .layout_left_padded ∧ vm.Rank > 1 →
        m = Mapping.layout_left_padded vm.extents (vm.stride_fill.getD 1 0)) ∧
      (T = .layout_right_padded ∧ vm.Rank > 1 →
        m = Mapping.layout_right_padded vm.extents (vm.stride_fill.getD (vm.Rank - 2) 0)) ∧
      (T ≠ .layout_stride ∧ ¬ (T = .layout_left_padded ∧ vm.Rank > 1) ∧
          ¬ (T = .layout_right_padded ∧ vm.Rank > 1) →
        ∃ E : ExtentsLayout, m = Mapping.from_extents E vm.extents) := by
  cases T with
  | layout_stride =>
      exact ⟨_, rfl, rfl, rfl, fun _ => rfl, by simp, by simp, by simp⟩
  | layout_left =>
      exact ⟨_, rfl, rfl, rfl, by simp, by simp, by simp, fun _ => ⟨.layout_left, rfl⟩⟩
  | layout_right =>
      exact ⟨_, rfl, rfl, rfl, by simp, by simp, by simp, fun _ => ⟨.layout_right, rfl⟩⟩
  | layout_left_padded =>
      by_cases h : vm.Rank > 1
      · refine ⟨Mapping.layout_left_padded vm.extents (vm.stride_fill.getD 1 0), ?_, rfl, rfl,
          by simp, fun _ => rfl, by simp, fun hc => absurd ⟨rfl, h⟩ hc.2.1⟩
        simp only [mapping_from_view_mapping, h, if_true]
      · refine ⟨Mapping.from_extents .layout_left_padded vm.extents, ?_, rfl, rfl,
          by simp, fun hc => absurd hc.2 h, by simp, fun _ => ⟨.layout_left_padded, rfl⟩⟩
        simp only [mapping_from_view_mapping, h, if_false]
  | layout_right_padded =>
      by_cases h : vm.Rank > 1
      · refine ⟨Mapping.layout_right_padded vm.extents (vm.stride_fill.getD (vm.Rank - 2) 0),
          ?_, rfl, rfl, by simp, by simp, fun _ => rfl, fun hc => absurd ⟨rfl, h⟩ hc.2.2⟩
        simp only [mapping_from_view_mapping, h, if_true]
      · refine ⟨Mapping.from_extents .layout_right_padded vm.extents, ?_, rfl, rfl,
          by simp, by simp, fun hc => absurd hc.2 h, fun _ => ⟨.layout_right_padded, rfl⟩⟩
        simp only [mapping_from_view_mapping, h, if_false]

/-- C12 at a padded-right target of rank 3 with a stride array that is not
self-consistent. -/
theorem mapping_from_view_mapping_never_validates_witness :
    (ViewMapping.mk [4, 5, 6] [7, 8, 9]).Rank ≤ LAYOUT_TYPE_MAX_RANK ∧
    ∃ m, mapping_from_view_mapping .layout_right_padded ⟨[4, 5, 6], [7, 8, 9]⟩ = .returned m ∧
      m.layout_type = .layout_right_padded ∧ m.extents = [4, 5, 6] ∧
      m = Mapping.layout_right_padded [4, 5, 6] 8 :=
  ⟨by decide,
    (mapping_from_view_mapping_never_validates .layout_right_padded ⟨[4, 5, 6], [7, 8, 9]⟩
      (by decide)).elim fun m hm =>
        ⟨m, hm.1, hm.2.1, hm.2.2.1, hm.2.2.2.2.2.1 ⟨rfl, by decide⟩⟩⟩

/-- C15. Plain target ignores the stride field: for every target mapping type
whose family is the plain `layout_left` or `layout_right`, every rank `R ≤ 8`
and every two `LayoutLeft` / `LayoutRight` descriptors that agree on
`dimension[0 .. R)`, whatever their stride values, `mapping_from_layout_type`
returns the same contiguous mapping for both and never aborts. -/
theorem plain_target_ignores_stride (T : ExtentsLayout)
    (hT : T = .layout_left ∨ T = .layout_right) (rank : Nat)
    (h8 : rank ≤ LAYOUT_TYPE_MAX_RANK) (L L' : LeftRight) (d d' : LayoutLR)
    (hdim : ∀ i : Fin 8, i.val < rank → d.dimension i = d'.dimension i) :
    ∃ m, mapping_from_layout_type T rank L d = .returned m ∧
      mapping_from_layout_type T rank L' d' = .returned m ∧
      m = Mapping.from_extents T (pack d.dimension rank) := by
  refine ⟨_, mapping_from_layout_type_plain T rank L d hT, ?_, rfl⟩
  rw [mapping_from_layout_type_plain T rank L' d' hT,
    pack_congr d.dimension d'.dimension rank h8 hdim]

/-- C15 at the plain `layout_left` target of rank 3 and two descriptors with
dimensions `(2, 3, 4)`, one with the sentinel stride and one with `stride = 8`. -/
theorem plain_target_ignores_stride_witness :
    (ExtentsLayout.layout_left = .layout_left ∨ ExtentsLayout.layout_left = .layout_right) ∧
    3 ≤ LAYOUT_TYPE_MAX_RANK ∧
    ∃ m, mapping_from_layout_type .layout_left 3 .LayoutLeft
          ⟨![2, 3, 4, 0, 0, 0, 0, 0], KOKKOS_IMPL_CTOR_DEFAULT_ARG⟩ = .returned m ∧
      mapping_from_layout_type .layout_left 3 .LayoutRight
          ⟨![2, 3, 4, 1, 1, 1, 1, 1], 8⟩ = .returned m ∧
      m = Mapping.from_extents .layout_left (pack ![2, 3, 4, 0, 0, 0, 0, 0] 3) :=
  ⟨Or.inl rfl, by decide,
    plain_target_ignores_stride .layout_left (Or.inl rfl) 3 (by decide) .LayoutLeft .LayoutRight
      ⟨![2, 3, 4, 0, 0, 0, 0, 0], KOKKOS_IMPL_CTOR_DEFAULT_ARG⟩ ⟨![2, 3, 4, 1, 1, 1, 1, 1], 8⟩
      (by decide)⟩

/-- C16. View strides are reproduced: for every rank `R ≤ 8` and every view whose
stride array is self-consistent for the target family, the mapping returned by
`mapping_from_view_mapping` has the view's extents and reports
`stride(i) = strides[i]` for every `i < R`, including the dimensions whose
stride is computed rather than stored. -/
theorem view_strides_reproduced (T : MappingLayout) (vm : ViewMapping)
    (_hR : vm.Rank ≤ LAYOUT_TYPE_MAX_RANK) (hc : view_strides_consistent T vm) :
    ∃ m, mapping_from_view_mapping T vm = .returned m ∧
      m.layout_type = T ∧ m.rank = vm.Rank ∧ m.extents = vm.extents ∧
      ∀ i, i < vm.Rank → m.stride i = vm.stride_fill.getD i 0 := by
  cases T with
  | layout_stride =>
      exact ⟨_, rfl, rfl, rfl, rfl, fun _ _ => rfl⟩
  | layout_left =>
      refine ⟨_, rfl, rfl, rfl, rfl, fun i hi => ?_⟩
      rw [hc i hi]
      exact from_extents_natural .layout_left vm.extents i hi
  | layout_right =>
      refine ⟨_, rfl, rfl, rfl, rfl, fun i hi => ?_⟩
      rw [hc i hi]
      exact from_extents_natural .layout_right vm.extents i hi
  | layout_left_padded =>
      by_cases h : vm.Rank > 1
      · refine ⟨Mapping.layout_left_padded vm.extents (vm.stride_fill.getD 1 0), ?_, rfl, rfl,
          rfl, fun i hi => ?_⟩
        · simp only [mapping_from_view_mapping, h, if_true]
        · rw [hc i hi]; rfl
      · refine ⟨Mapping.from_extents .layout_left_padded vm.extents, ?_, rfl, rfl, rfl,
          fun i hi => ?_⟩
        · simp only [mapping_from_view_mapping, h, if_false]
        · have hi0 : i = 0 := by omega
          rw [hc i hi, hi0]
          simp [Mapping.from_extents, Mapping.stride]
  | layout_right_padded =>
      by_cases h : vm.Rank > 1
      · refine ⟨Mapping.layout_right_padded vm.extents (vm.stride_fill.getD (vm.Rank - 2) 0),
          ?_, rfl, rfl, rfl, fun i hi => ?_⟩
        · simp only [mapping_from_view_mapping, h, if_true]
        · rw [hc i hi]; rfl
      · refine ⟨Mapping.from_extents .layout_right_padded vm.extents, ?_, rfl, rfl, rfl,
          fun i hi => ?_⟩
        · simp only [mapping_from_view_mapping, h, if_false]
        · have hi0 : i = 0 := by omega
          have hR1 : vm.Rank = 1 := by omega
          have hlen : vm.extents.length = 1 := hR1
          rw [hc i hi, hi0]
          simp [Mapping.from_extents, Mapping.stride, hR1, hlen]

/-- C16 at a padded-right target of rank 3: extents `(4, 5, 6)`, strides
`(40, 8, 1)`, where `strides[0] = strides[1] * extent(1)` is computed by the
mapping. -/
theorem view_strides_reproduced_witness :
    (ViewMapping.mk [4, 5, 6] [40, 8, 1]).Rank ≤ LAYOUT_TYPE_MAX_RANK ∧
    view_strides_consistent .layout_right_padded ⟨[4, 5, 6], [40, 8, 1]⟩ ∧
    ∃ m, mapping_from_view_mapping .layout_right_padded ⟨[4, 5, 6], [40, 8, 1]⟩ = .returned m ∧
      m.layout_type = .layout_right_padded ∧
      m.rank = (ViewMapping.mk [4, 5, 6] [40, 8, 1]).Rank ∧ m.extents = [4, 5, 6] ∧
      ∀ i, i < (ViewMapping.mk [4, 5, 6] [40, 8, 1]).Rank →
        m.stride i = [40, 8, 1].getD i 0 :=
  ⟨by decide, by decide,
    view_strides_reproduced .layout_right_padded ⟨[4, 5, 6], [40, 8, 1]⟩ (by decide) (by decide)⟩

/-! ## The descriptor round trip -/

theorem padded_stride_right_rank (e : List Nat) (p rank : Nat) (hlen : e.length = rank)
    (h : 2 ≤ rank) : (Mapping.layout_right_padded e p).stride (rank - 2) = p := by
  subst hlen
  exact padded_stride_right e p h

theorem from_extents_right_padded_unpadded (e : List Nat) (rank : Nat) (hlen : e.length = rank)
    (h : 2 ≤ rank) :
    (Mapping.from_extents .layout_right_padded e).stride (rank - 2)
      = (Mapping.from_extents .layout_right_padded e).extent (rank - 1) := by
  subst hlen
  exact padded_stride_right e _ h

/-- The two ways in which the conversion to a padded target returns a mapping:
from the extents alone (sentinel stride or rank below 2), or from the extents
plus the concrete stride (never for `LayoutRight` at rank above 2). -/
theorem mapping_from_layout_type_returned_cases (F L : LeftRight) (rank : Nat) (d : LayoutLR)
    (m : Mapping)
    (hm : mapping_from_layout_type (LayoutFromLayoutType F) rank L d = .returned m) :
    ((d.stride = KOKKOS_IMPL_CTOR_DEFAULT_ARG ∨ rank < 2) ∧
      m = Mapping.from_extents (LayoutFromLayoutType F) (pack d.dimension rank)) ∨
    ((d.stride ≠ KOKKOS_IMPL_CTOR_DEFAULT_ARG ∧ 2 ≤ rank ∧ ¬ (L = .LayoutRight ∧ rank > 2)) ∧
      m = padded_mapping F (pack d.dimension rank) d.stride) := by
  have hT : LayoutFromLayoutType F = .layout_left_padded ∨
      LayoutFromLayoutType F = .layout_right_padded := by
    cases F
    · exact Or.inl rfl
    · exact Or.inr rfl
  by_cases hs : d.stride = KOKKOS_IMPL_CTOR_DEFAULT_ARG ∨ rank < 2
  · left
    rw [mapping_from_layout_type_sentinel _ _ _ _ hs] at hm
    cases hm
    exact ⟨hs, rfl⟩
  · right
    have hs1 : d.stride ≠ KOKKOS_IMPL_CTOR_DEFAULT_ARG := fun h => hs (Or.inl h)
    have hs2 : 2 ≤ rank := by
      by_contra h
      exact hs (Or.inr (by omega))
    by_cases hL : L = .LayoutRight ∧ rank > 2
    · obtain ⟨hL1, hL2⟩ := hL
      subst hL1
      rw [mapping_from_layout_type_right_validation _ _ _ hT hs1 hL2] at hm
      split at hm <;> cases hm
    · rw [mapping_from_layout_type_concrete _ _ _ _ hT hs1 hs2 hL] at hm
      cases hm
      refine ⟨⟨hs1, hs2, hL⟩, ?_⟩
      cases F <;> rfl

/-- C18. Descriptor round trip: for every `LayoutLeft` / `LayoutRight` descriptor `d`
and rank `R ≤ 8`, if `mapping_from_layout_type` returns a mapping `m` of the
padded family that `LayoutFromLayoutType` assigns to `d`'s family, then
`layout_type_from_mapping(m)` back to `d`'s family does not abort and returns a
descriptor with `dimension[i] = d.dimension[i]` for every `i < R`, whose stride
equals `d.stride` when `d.stride` is concrete and `R ≥ 2`. -/
theorem descriptor_round_trip (L : LeftRight) (rank : Nat) (h8 : rank ≤ LAYOUT_TYPE_MAX_RANK)
    (d : LayoutLR) (m : Mapping)
    (hm : mapping_from_layout_type (LayoutFromLayoutType L) rank L d = .returned m) :
    ∃ d', layout_type_from_mapping L m = .returned d' ∧
      (∀ i : Fin 8, i.val < rank → d'.dimension i = d.dimension i) ∧
      (d.stride ≠ KOKKOS_IMPL_CTOR_DEFAULT_ARG ∧ 2 ≤ rank → d'.stride = d.stride) := by
  have hlen := pack_length d.dimension rank h8
  have hcases := mapping_from_layout_type_returned_cases L L rank d m hm
  have hrank : m.rank = rank := by
    rcases hcases with ⟨_, rfl⟩ | ⟨_, rfl⟩
    · rw [from_extents_rank, hlen]
    · cases L <;> exact hlen
  have hext : ∀ i : Fin 8, i.val < rank → m.extent i.val = d.dimension i := by
    intro i hi
    rcases hcases with ⟨_, rfl⟩ | ⟨_, rfl⟩
    · rw [from_extents_extent]; exact pack_getD _ _ i hi
    · cases L <;> exact pack_getD _ _ i hi
  have hna : ¬ (m.layout_type = .layout_right_padded ∧ m.rank > 2 ∧
      m.stride (m.rank - 2) ≠ m.extent (m.rank - 1)) := by
    rintro ⟨hty, hgt, hne⟩
    rw [hrank] at hgt hne
    apply hne
    rcases hcases with ⟨_, rfl⟩ | ⟨⟨_, _, hL⟩, rfl⟩
    · cases L with
      | LayoutLeft => cases hty
      | LayoutRight =>
          exact from_extents_right_padded_unpadded _ rank hlen (by omega)
    · cases L with
      | LayoutLeft => cases hty
      | LayoutRight => exact absurd ⟨rfl, hgt⟩ hL
  have hret : ∃ d', layout_type_from_mapping L m = .returned d' := by
    rw [layout_type_from_mapping_eq, if_neg hna]
    exact ⟨_, rfl⟩
  obtain ⟨d', hd'⟩ := hret
  refine ⟨d', hd', fun i hi => ?_, ?_⟩
  · rw [layout_type_from_mapping_dimension L m d' hd' i, hrank]
    simp only [gt_iff_lt, hi, if_true]
    exact hext i hi
  · rintro ⟨hs, h2⟩
    have hst := layout_type_from_mapping_stride_field L m d' hd'
    rw [hrank] at hst
    rcases hcases with ⟨h, _⟩ | ⟨⟨_, _, hL⟩, rfl⟩
    · rcases h with h | h
      · exact absurd h hs
      · omega
    · cases L with
      | LayoutLeft =>
          rw [hst, if_pos ⟨by omega, rfl⟩]
          exact padded_stride_one_left _ _
      | LayoutRight =>
          have hr2 : rank = 2 := by
            by_contra hne
            exact hL ⟨rfl, by omega⟩
          have hn : ¬ (rank > 1 ∧ (padded_mapping .LayoutRight (pack d.dimension rank)
              d.stride).layout_type = .layout_left_padded) := by
            rintro ⟨_, h⟩; cases h
          rw [hst, if_neg hn, if_pos ⟨rfl, hr2⟩]
          have h1 := padded_stride_right_rank (pack d.dimension rank) d.stride rank hlen h2
          have h0 : rank - 2 = 0 := by omega
          rw [h0] at h1
          exact h1

/-- C18 at the `LayoutRight` descriptor with dimensions `(5, 6)` and `stride = 8`,
rank 2. -/
theorem descriptor_round_trip_witness :
    2 ≤ LAYOUT_TYPE_MAX_RANK ∧
    mapping_from_layout_type (LayoutFromLayoutType .LayoutRight) 2 .LayoutRight
        ⟨![5, 6, 0, 0, 0, 0, 0, 0], 8⟩
      = .returned (Mapping.layout_right_padded [5, 6] 8) ∧
    ∃ d', layout_type_from_mapping .LayoutRight (Mapping.layout_right_padded [5, 6] 8)
        = .returned d' ∧
      (∀ i : Fin 8, i.val < 2 →
        d'.dimension i = (![5, 6, 0, 0, 0, 0, 0, 0] : Fin 8 → Nat) i) ∧
      ((8 : Nat) ≠ KOKKOS_IMPL_CTOR_DEFAULT_ARG ∧ 2 ≤ 2 → d'.stride = 8) :=
  ⟨by decide, by decide,
    descriptor_round_trip .LayoutRight 2 (by decide) ⟨![5, 6, 0, 0, 0, 0, 0, 0], 8⟩ _
      (by decide)⟩

/-! ## Uniform layout selection -/

/-- C21. Uniform layout selection: `ViewUniformLayout<L, R>::layout_type` is
`Kokkos::LayoutLeft` for `R = 0` whatever `L` is, and is `L` itself for every
`R ≥ 1` (the explicit `LayoutRight`, rank 1 specialisation included);
consequently `ViewUniformType` maps every rank-0 view to `LayoutLeft` and leaves
the layout of every view of higher rank unchanged. -/
theorem uniform_layout_selection (L : LayoutClass) (R : Int) (V : ViewType) :
    ViewUniformLayout L 0 = .LayoutLeft ∧
    (1 ≤ R → ViewUniformLayout L R = L) ∧
    ViewUniformLayout .LayoutRight 1 = .LayoutRight ∧
    (V.rank = 0 → ViewUniformType.layout_type V = .LayoutLeft) ∧
    (1 ≤ V.rank → ViewUniformType.layout_type V = V.layout_type) := by
  have hpos : ∀ (L : LayoutClass) (R : Int), 1 ≤ R → ViewUniformLayout L R = L := by
    intro L R hR
    unfold ViewUniformLayout
    have h0 : ¬ (R = 0) := by omega
    rw [if_neg h0]
    split
    · rename_i h; exact h.1.symm
    · rfl
  refine ⟨rfl, hpos L R, rfl, ?_, ?_⟩
  · intro h0
    unfold ViewUniformType.layout_type ViewUniformLayout
    rw [h0]
    rfl
  · intro h1
    exact hpos V.layout_type V.rank (by exact_mod_cast h1)

/-- C21 at `LayoutStride` with rank 3, and at the `LayoutRight` views of rank 0
and rank 2. -/
theorem uniform_layout_selection_witness :
    ((1 : Int) ≤ 3 ∧ ViewUniformLayout .LayoutStride 3 = .LayoutStride) ∧
    ((ViewType.mk .LayoutRight 0).rank = 0 ∧
      ViewUniformType.layout_type ⟨.LayoutRight, 0⟩ = .LayoutLeft) ∧
    (1 ≤ (ViewType.mk .LayoutRight 2).rank ∧
      ViewUniformType.layout_type ⟨.LayoutRight, 2⟩ = .LayoutRight) :=
  ⟨⟨by decide, (uniform_layout_selection .LayoutStride 3 ⟨.LayoutRight, 0⟩).2.1 (by decide)⟩,
    ⟨rfl, (uniform_layout_selection .LayoutStride 3 ⟨.LayoutRight, 0⟩).2.2.2.1 rfl⟩,
    ⟨by decide, (uniform_layout_selection .LayoutStride 3 ⟨.LayoutRight, 2⟩).2.2.2.2 (by decide)⟩⟩

end Kokkos.Impl

namespace GUPS

/-! ## The GUPS index computation and argument handling -/

/-- With at least two teams the position read stays inside `indices`. -/
theorem index_position_lt_of_two_teams (N num_teams team_size league_rank team_rank i : Nat)
    (hnt : 2 ≤ num_teams) (htr : team_rank < team_size)
    (hi : i < last_thread_i N num_teams team_size league_rank team_rank) :
    index_position N num_teams team_size team_rank i < N := by
  have h1 : num_teams * (N / num_teams) ≤ N := Nat.mul_div_le N num_teams
  have h2 : team_size * (N / num_teams / team_size) ≤ N / num_teams :=
    Nat.mul_div_le (N / num_teams) team_size
  have h3 : last_thread_i N num_teams team_size league_rank team_rank
      ≤ team_rank * (N / num_teams / team_size) + N / num_teams / team_size := by
    unfold last_thread_i first_thread_i iters_per_thread iters_per_team
    split
    · exact le_refl _
    · omega
  have h4 : (team_rank + 1) * (N / num_teams / team_size)
      ≤ team_size * (N / num_teams / team_size) := Nat.mul_le_mul_right _ htr
  have h5 : 2 * (N / num_teams) ≤ num_teams * (N / num_teams) := Nat.mul_le_mul_right _ hnt
  unfold index_position first_thread_i iters_per_thread iters_per_team
  generalize last_thread_i N num_teams team_size league_rank team_rank = lt at hi h3
  generalize N / num_teams / team_size = t at h2 h3 h4 ⊢
  generalize N / num_teams = T at h1 h2 h5
  have h6 : (team_rank + 1) * t = team_rank * t + t := by ring
  generalize team_rank * t = a at h3 h6 ⊢
  generalize (team_rank + 1) * t = b at h4 h6
  generalize team_size * t = c at h2 h4
  generalize num_teams * T = e at h1 h5
  omega

/-- C19, the code at the failing input: with `indices` of length `N = 2`, one team
of two threads, the thread with `team_rank = 1` of team `league_rank = 0` has
`first_thread_i = 1` and `last_thread_i = 2`, so its vector index `i = 1` is in
range and reads `indices[2]`, one past the end. -/
theorem index_position_out_of_bounds :
    iters_per_team 2 1 = 2 ∧ iters_per_thread 2 1 2 = 1 ∧
    first_i 2 1 0 = 0 ∧ last_i 2 1 0 = 2 ∧
    first_thread_i 2 1 2 1 = 1 ∧ last_thread_i 2 1 2 0 1 = 2 ∧
    (1 : Nat) < last_thread_i 2 1 2 0 1 ∧
    index_position 2 1 2 1 1 = 2 ∧
    ¬ (index_position 2 1 2 1 1 < 2) := by
  decide

/-- C20, the code for every argument count, and at the failing input: each of
`indices`, `data`, `useAtomics`, `nTeams`, `nThrPerTeam`, `vlen` takes `atoi` of
its argument when present and keeps its initialised value otherwise, but
`repeats` without its argument receives the current value of `data`; started
without arguments (`argc = 1`) it is `33554432` instead of the initialised `10`. -/
theorem main_repeats_default (argc : Nat) (atoi_argv : Nat → Int) :
    (main argc atoi_argv).indices = (if argc > 1 then atoi_argv 1 else 8192) ∧
    (main argc atoi_argv).data = (if argc > 2 then atoi_argv 2 else 33554432) ∧
    (main argc atoi_argv).repeats
      = (if argc > 3 then atoi_argv 3 else (main argc atoi_argv).data) ∧
    (main argc atoi_argv).useAtomics
      = (if argc > 4 then decide (atoi_argv 4 ≠ 0) else false) ∧
    (main argc atoi_argv).nTeams = (if argc > 5 then atoi_argv 5 else 32) ∧
    (main argc atoi_argv).nThrPerTeam = (if argc > 6 then atoi_argv 6 else 32) ∧
    (main argc atoi_argv).vlen = (if argc > 7 then atoi_argv 7 else 1) ∧
    initial_parameters.repeats = 10 ∧
    (main 1 atoi_argv).repeats = 33554432 :=
  ⟨rfl, rfl, rfl, rfl, rfl, rfl, rfl, rfl, rfl⟩

end GUPS
